import Mathlib

set_option maxRecDepth 10000

/-!
A verification development for the translation and memory-management core of
flinux (`src/syscall/mm.c` and `src/dbt/x86.c`).  The C code is shallowly
embedded: machine integers become `Nat` with explicit `% 2^32` (resp. `% 2^8`
for the `uint8_t` per-block page counters) wherever the C computation can
wrap, pointers into the guest address space become plain numbers, and the
host (Windows NT) memory objects are represented by their observable content:
a per-block optional section-handle identifier, a fresh-identifier counter,
and the per-page protection last applied through `VirtualProtect`.
Host section creation (`NtCreateSection` / `NtMapViewOfSection`) may fail;
this is modelled by an oracle `fail : Nat → Bool` saying for which 64 KiB
block the creation fails.  The remaining host calls (`VirtualProtect`,
`NtQueryObject`, `NtUnmapViewOfSection`, duplication of a section during a
page fault) are modelled as succeeding.
-/

/- ----------------------------------------------------------------- -/
/- Constants from `src/syscall/mm.c`.                                 -/
/- ----------------------------------------------------------------- -/

/-- 4 KiB page size. -/
def PAGE_SIZE : Nat := 4096

/-- 64 KiB Windows allocation granularity (`BLOCK_SIZE`). -/
def BLOCK_SIZE : Nat := 65536

/-- `PAGES_PER_BLOCK` in mm.c. -/
def PAGES_PER_BLOCK : Nat := 16

/-- Higher bound of the user virtual address space (`ADDRESS_SPACE_HIGH`). -/
def ADDRESS_SPACE_HIGH : Nat := 0x80000000

/-- Lowest non fixed allocation address (`ADDRESS_ALLOCATION_LOW`). -/
def ADDRESS_ALLOCATION_LOW : Nat := 0x04000000

/-- Highest non fixed allocation address (`ADDRESS_ALLOCATION_HIGH`). -/
def ADDRESS_ALLOCATION_HIGH : Nat := 0x70000000

/-- Modelled from the spec: the base of the heap allocation window
`[HEAP_BASE, 0x04000000)` (§6 address layout).  The numeric value comes from
the header `syscall/mm.h`, which is not part of the two source files; the
claims only need `0 < HEAP_BASE < 0x04000000`. -/
def HEAP_BASE : Nat := 0x00110000

/-- `2^32`, the modulus of the 32-bit `size_t`/`uint32_t` arithmetic. -/
def U32 : Nat := 4294967296

/-- 32-bit unsigned subtraction `a - b` (two's complement wraparound). -/
def sub32 (a b : Nat) : Nat := (a + U32 - b % U32) % U32

/-- `ALIGN_TO_PAGE(addr)`: `((addr + PAGE_SIZE - 1) & 0xFFFFF000)` on a
32-bit `size_t`; the `&` with `0xFFFFF000` clears the low 12 bits. -/
def alignToPage (x : Nat) : Nat := (x + PAGE_SIZE - 1) % U32 / PAGE_SIZE * PAGE_SIZE

/-- `GET_PAGE(addr)`. -/
def GET_PAGE (a : Nat) : Nat := a / PAGE_SIZE

/-- `GET_BLOCK(addr)`. -/
def GET_BLOCK (a : Nat) : Nat := a / BLOCK_SIZE

/-- `GET_BLOCK_OF_PAGE(page)`. -/
def GET_BLOCK_OF_PAGE (p : Nat) : Nat := p / PAGES_PER_BLOCK

/-- `GET_FIRST_PAGE_OF_BLOCK(block)`. -/
def GET_FIRST_PAGE_OF_BLOCK (b : Nat) : Nat := b * PAGES_PER_BLOCK

/- Linux protection bits and mapping flags.  The constants live in Linux ABI
headers (`mman.h`), not in the two source files; the spec (§6) fixes their
identity only, and these are the standard i386 values. -/

/-- `PROT_READ`. -/
def PROT_READ : Nat := 1

/-- `PROT_WRITE`. -/
def PROT_WRITE : Nat := 2

/-- `PROT_EXEC`. -/
def PROT_EXEC : Nat := 4

/-- `MAP_SHARED`. -/
def MAP_SHARED : Nat := 1

/-- `MAP_PRIVATE`. -/
def MAP_PRIVATE : Nat := 2

/-- `MAP_FIXED`. -/
def MAP_FIXED : Nat := 0x10

/-- `MAP_ANONYMOUS`. -/
def MAP_ANONYMOUS : Nat := 0x20

/-- Modelled from the spec: the internal `__MAP_HEAP` flag steering an
allocation into the heap window (§6 "HEAP (internal)"); its numeric value is
in the missing header `syscall/mm.h` and only its identity matters. -/
def MAP_HEAP : Nat := 0x40000

/-- Linux `EINVAL`. -/
def EINVAL : Nat := 22

/-- Linux `ENOMEM`. -/
def ENOMEM : Nat := 12

/-- Linux `EBADF`. -/
def EBADF : Nat := 9

/- Windows page-protection constants (winnt.h values). -/

/-- `PAGE_NOACCESS`. -/
def PAGE_NOACCESS : Nat := 0x01

/-- `PAGE_READONLY`. -/
def PAGE_READONLY : Nat := 0x02

/-- `PAGE_READWRITE`. -/
def PAGE_READWRITE : Nat := 0x04

/-- `PAGE_EXECUTE`. -/
def PAGE_EXECUTE : Nat := 0x10

/-- `PAGE_EXECUTE_READ`. -/
def PAGE_EXECUTE_READ : Nat := 0x20

/-- `PAGE_EXECUTE_READWRITE`. -/
def PAGE_EXECUTE_READWRITE : Nat := 0x40

/-- `prot_linux2win` from mm.c. -/
def prot_linux2win (prot : Nat) : Nat :=
  if prot &&& PROT_EXEC ≠ 0 ∧ prot &&& PROT_WRITE ≠ 0 then PAGE_EXECUTE_READWRITE
  else if prot &&& PROT_EXEC ≠ 0 ∧ prot &&& PROT_READ ≠ 0 then PAGE_EXECUTE_READ
  else if prot &&& PROT_EXEC ≠ 0 then PAGE_EXECUTE
  else if prot &&& PROT_WRITE ≠ 0 then PAGE_READWRITE
  else if prot &&& PROT_READ ≠ 0 then PAGE_READONLY
  else PAGE_NOACCESS

/- ----------------------------------------------------------------- -/
/- The memory-manager state.                                          -/
/- ----------------------------------------------------------------- -/

/-- `struct map_entry`.  The `f` field models the NULL-ness of the
`struct file *` pointer; the file object itself (reference count, `pread`
into the freshly mapped pages) is host/VFS state outside the embedding. -/
structure MapEntry where
  start_page : Nat
  end_page : Nat
  f : Bool
  offset_pages : Nat
deriving DecidableEq

/-- `struct mm_data` plus the observable host memory state.
`map_list` is the ordered singly-linked list of `map_entry` as a Lean list;
`block_page_count` stores the `uint8_t` counters (always `< 256`, updates
wrap mod 256 like the C type); `block_section_handle` holds `none` for
`NULL` and `some id` for a live section handle, with `next_handle` the
supply of fresh handle identities; `host_prot` is the Windows protection
constant last applied to each 4 KiB page via `VirtualProtect`. -/
structure MMState where
  brk : Nat
  map_list : List MapEntry
  page_prot : Nat → Nat
  block_page_count : Nat → Nat
  block_section_handle : Nat → Option Nat
  next_handle : Nat
  host_prot : Nat → Nat

/-- Pointwise update of a function model of an array. -/
def updFun {α : Type} (f : Nat → α) (i : Nat) (v : α) : Nat → α :=
  fun j => if j = i then v else f j

/-- The state after `mm_init()`: `mm_data` is freshly `VirtualAlloc`-ed
(zero-filled), the map list is empty.  The `map_entries` arena free-list is
not modelled: `new_map_entry` is modelled as always succeeding (the C code
dereferences the result unconditionally anyway). -/
def initState : MMState :=
  { brk := 0
    map_list := []
    page_prot := fun _ => 0
    block_page_count := fun _ => 0
    block_section_handle := fun _ => none
    next_handle := 0
    host_prot := fun _ => 0 }

/-- A host-failure oracle under which every section creation succeeds. -/
def nofail : Nat → Bool := fun _ => false

/- ----------------------------------------------------------------- -/
/- `find_free_pages`.                                                 -/
/- ----------------------------------------------------------------- -/

/-- The loop of `find_free_pages`: `last` starts at `GET_PAGE(low)`; every
entry whose `start_page` is at least `GET_PAGE(low)` either leaves a large
enough gap `[last, e.start_page)` (return `last`) or pushes `last` past its
end; after the loop the tail gap up to `GET_PAGE(high)` is checked.  The two
subtractions are 32-bit unsigned, as in the C code. -/
def ffp_go (cnt lowP highP : Nat) : List MapEntry → Nat → Nat
  | [], last => if cnt ≤ sub32 highP last then last else 0
  | e :: es, last =>
    if lowP ≤ e.start_page then
      if cnt ≤ sub32 e.start_page last then last
      else ffp_go cnt lowP highP es (e.end_page + 1)
    else ffp_go cnt lowP highP es last

/-- `find_free_pages(count, low, high)` over a given map list. -/
def find_free_pages (cnt low high : Nat) (l : List MapEntry) : Nat :=
  ffp_go cnt (GET_PAGE low) (GET_PAGE high) l (GET_PAGE low)

/- ----------------------------------------------------------------- -/
/- `mm_munmap`.                                                       -/
/- ----------------------------------------------------------------- -/

/-- The per-conflict loop `for (i = start_page; i <= end_page; i++)
mm->block_page_count[GET_BLOCK_OF_PAGE(i)]--` of `mm_munmap`, with the
`uint8_t` decrement wrapping mod 256.  Arguments: first page, number of
pages, counter array. -/
def decPagesGo : Nat → Nat → (Nat → Nat) → (Nat → Nat)
  | _, 0, c => c
  | p, Nat.succ n, c => decPagesGo (p + 1) n (updFun c (GET_BLOCK_OF_PAGE p) ((c (GET_BLOCK_OF_PAGE p) + 255) % 256))

/-- The per-conflict loop of `mm_munmap` that unmaps, closes and clears the
section of every touched block whose page count has reached zero.
Arguments: first block, number of blocks, counter array, handle array. -/
def clearBlocksGo : Nat → Nat → (Nat → Nat) → (Nat → Option Nat) → (Nat → Option Nat)
  | _, 0, _, h => h
  | b, Nat.succ n, c, h =>
    clearBlocksGo (b + 1) n c (if c b = 0 then updFun h b none else h)

/-- The entry-walking loop of `mm_munmap` over `[unmap_start_page,
unmap_end_page]`: stop at the first entry past the range; split, trim or
remove each conflicting entry; decrement page counts and release empty
blocks per conflict.  In the split case the C loop continues at the freshly
created right half, whose `start_page` is `unmap_end_page + 1 > uE`, so the
very next iteration breaks; the recursion returns directly with the same
result.  The `offset_pages` of a split-off fileless entry is uninitialised
in C (fresh from the free list) and modelled as 0. -/
def munmapEntries (uS uE : Nat) :
    List MapEntry → (Nat → Nat) → (Nat → Option Nat) →
    (List MapEntry × (Nat → Nat) × (Nat → Option Nat))
  | [], c, h => ([], c, h)
  | e :: es, c, h =>
    if uE < e.start_page then (e :: es, c, h)
    else if e.end_page < uS then
      let r := munmapEntries uS uE es c h
      (e :: r.1, r.2)
    else
      let sp := max uS e.start_page
      let ep := min uE e.end_page
      let c2 := decPagesGo sp (ep + 1 - sp) c
      let h2 := clearBlocksGo (GET_BLOCK_OF_PAGE sp)
        (GET_BLOCK_OF_PAGE ep + 1 - GET_BLOCK_OF_PAGE sp) c2 h
      if e.start_page < sp ∧ ep < e.end_page then
        ({ e with end_page := sp - 1 } ::
         { start_page := ep + 1
           end_page := e.end_page
           f := e.f
           offset_pages := if e.f then e.offset_pages + (ep + 1 - e.start_page) else 0 } :: es,
         c2, h2)
      else if e.start_page < sp then
        let r := munmapEntries uS uE es c2 h2
        ({ e with end_page := sp - 1 } :: r.1, r.2)
      else if ep < e.end_page then
        let r := munmapEntries uS uE es c2 h2
        ({ e with
            start_page := ep + 1
            offset_pages := if e.f then e.offset_pages + (ep + 1 - e.start_page) else e.offset_pages } :: r.1,
         r.2)
      else
        munmapEntries uS uE es c2 h2

/-- Whether the (page-rounded) request `[addr, addr+length)` is rejected by
the shared range check of `mm_mmap`/`mm_munmap`/`sys_mprotect`: both
endpoints must lie inside `[0, ADDRESS_SPACE_HIGH)` and the 32-bit sum
`addr + length` must not wrap below `addr`.  (`addr < ADDRESS_SPACE_LOW`
with `ADDRESS_SPACE_LOW = 0` can never hold for an unsigned value and is
dropped.) -/
def rangeBad (addr length : Nat) : Prop :=
  ADDRESS_SPACE_HIGH ≤ addr ∨ ADDRESS_SPACE_HIGH ≤ (addr + length) % U32 ∨
    (addr + length) % U32 < addr

instance (addr length : Nat) : Decidable (rangeBad addr length) := by
  unfold rangeBad; infer_instance

/-- `mm_munmap`. -/
def mm_munmap (addr length0 : Nat) (s : MMState) : Int × MMState :=
  if addr % PAGE_SIZE ≠ 0 then (-(EINVAL : Int), s)
  else
    let length := alignToPage length0
    if rangeBad addr length then (-(EINVAL : Int), s)
    else
      let uS := GET_PAGE addr
      let uE := GET_PAGE (sub32 (addr + length) 1)
      let t := munmapEntries uS uE s.map_list s.block_page_count s.block_section_handle
      (0, { s with map_list := t.1, block_page_count := t.2.1, block_section_handle := t.2.2 })

/- ----------------------------------------------------------------- -/
/- `mm_mmap`.                                                         -/
/- ----------------------------------------------------------------- -/

/-- The section-allocation loop of `mm_mmap` over the touched blocks
`[start_block, end_block]`: for every block whose page count is zero a new
section is created (fresh handle identity) and mapped; when creation or
mapping of block `i` fails (oracle `fail`), the `ROLLBACK` path unmaps,
closes and clears the handle of every block in `[start_block, i)` whose page
count is zero — exactly the ones allocated earlier in this call.  Arguments
after the fixed ones: current block, number of remaining blocks, handle
array, next fresh handle identity.  The result flag is false on rollback. -/
def allocSectionsGo (fail : Nat → Bool) (c : Nat → Nat) (startB next0 : Nat) :
    Nat → Nat → (Nat → Option Nat) → Nat → (Bool × (Nat → Option Nat) × Nat)
  | _, 0, h, next => (true, h, next)
  | i, Nat.succ n, h, next =>
    if c i = 0 then
      if fail i then
        (false, fun j => if startB ≤ j ∧ j < i ∧ c j = 0 then none else h j, next0)
      else allocSectionsGo fail c startB next0 (i + 1) n (updFun h i (some next)) (next + 1)
    else allocSectionsGo fail c startB next0 (i + 1) n h next

/-- Ordered insertion of the fresh map entry, exactly as coded in `mm_mmap`:
walk to the first element whose successor is absent or starts past
`entry.end_page` and splice the entry behind it. -/
def insertAfter (endP : Nat) (entry : MapEntry) : List MapEntry → List MapEntry
  | [] => [entry]
  | e :: es =>
    match es with
    | [] => e :: [entry]
    | e2 :: _ => if endP < e2.start_page then e :: entry :: es else e :: insertAfter endP entry es

/-- The list-insertion step of `mm_mmap`.  Note the faithful rendering of the
head case: when the new entry ends before the current head starts, the code
executes `entry->next = mm->map_list->next; mm->map_list = entry;`, which
links the new entry to the *successor* of the old head — the old head entry
itself drops out of the list.  In the empty-list case the code sets only
`mm->map_list = entry` (mm.c:543-547) and never writes `entry->next`;
`new_map_entry` (mm.c:126-135) does not clear the field either, so in C the
fresh entry's `next` still aliases the arena free chain.  The embedding
abstracts this dangling tail as the empty list: it captures the program's
list only up to the point where that stale pointer is first followed, so no
conclusion here may rest on traversals past a singleton created this way. -/
def insertEntry (entry : MapEntry) (l : List MapEntry) : List MapEntry :=
  match l with
  | [] => [entry]
  | head :: tail =>
    if entry.end_page < head.start_page then entry :: tail
    else insertAfter entry.end_page entry (head :: tail)

/-- The final loop of `mm_mmap` over the mapped pages: write the Linux
protection byte, increment the `uint8_t` page count of the page's block
(wrapping mod 256), and apply the derived host protection via
`VirtualProtect` (modelled as succeeding).  Arguments: protection, first
page, number of pages, state. -/
def protPagesGo (prot : Nat) : Nat → Nat → MMState → MMState
  | _, 0, s => s
  | p, Nat.succ n, s =>
    protPagesGo prot (p + 1) n
      { s with
        page_prot := updFun s.page_prot p prot
        block_page_count := updFun s.block_page_count (GET_BLOCK_OF_PAGE p)
          ((s.block_page_count (GET_BLOCK_OF_PAGE p) + 1) % 256)
        host_prot := updFun s.host_prot p (prot_linux2win prot) }

/-- The second half of `mm_mmap`, from the point where the target address is
known (either the caller's `MAP_FIXED` address or the one found by
`find_free_pages`): unmap conflicts when `MAP_FIXED`, force `PROT_WRITE`
onto file-backed mappings, allocate the missing sections (rolling back and
returning `-ENOMEM` on host failure), insert the map entry, and set the
per-page protections.  The eager `pread` populating a file-backed mapping
writes guest memory contents, which are outside the embedded state. -/
def mmapResolved (fail : Nat → Bool) (addr length prot flags : Nat) (hasFile : Bool)
    (offp : Nat) (s : MMState) : Int × MMState :=
  let startP := GET_PAGE addr
  let endP := GET_PAGE (sub32 (addr + length) 1)
  let startB := GET_BLOCK addr
  let endB := GET_BLOCK (sub32 (addr + length) 1)
  let s1 := if flags &&& MAP_FIXED ≠ 0 then (mm_munmap addr length s).2 else s
  let prot2 := if flags &&& MAP_ANONYMOUS = 0 then prot ||| PROT_WRITE else prot
  let a := allocSectionsGo fail s1.block_page_count startB s1.next_handle startB
    (endB + 1 - startB) s1.block_section_handle s1.next_handle
  if a.1 = false then
    (-(ENOMEM : Int), { s1 with block_section_handle := a.2.1, next_handle := a.2.2 })
  else
    let entry : MapEntry := { start_page := startP, end_page := endP, f := hasFile, offset_pages := offp }
    let s2 := { s1 with
                block_section_handle := a.2.1
                next_handle := a.2.2
                map_list := insertEntry entry s1.map_list }
    (Int.ofNat addr, protPagesGo prot2 startP (endP + 1 - startP) s2)

/-- `mm_mmap`.  `hasFile` models `f != NULL`. -/
def mm_mmap (fail : Nat → Bool) (addr0 length0 prot flags : Nat) (hasFile : Bool)
    (offp : Nat) (s : MMState) : Int × MMState :=
  if length0 = 0 then (-(EINVAL : Int), s)
  else
    let length := alignToPage length0
    if rangeBad addr0 length then (-(EINVAL : Int), s)
    else if flags &&& MAP_SHARED ≠ 0 then (-(EINVAL : Int), s)
    else if flags &&& MAP_ANONYMOUS ≠ 0 ∧ hasFile then (-(EINVAL : Int), s)
    else if flags &&& MAP_ANONYMOUS = 0 ∧ ¬ hasFile then (-(EBADF : Int), s)
    else if flags &&& MAP_FIXED = 0 then
      let cnt := GET_PAGE (alignToPage length)
      let ap :=
        if flags &&& MAP_HEAP ≠ 0 then
          find_free_pages cnt HEAP_BASE ADDRESS_ALLOCATION_LOW s.map_list
        else
          find_free_pages cnt ADDRESS_ALLOCATION_LOW ADDRESS_ALLOCATION_HIGH s.map_list
      if ap = 0 then (-(ENOMEM : Int), s)
      else mmapResolved fail (ap * PAGE_SIZE) length prot flags hasFile offp s
    else if addr0 % PAGE_SIZE ≠ 0 then (-(EINVAL : Int), s)
    else mmapResolved fail addr0 length prot flags hasFile offp s

/- ----------------------------------------------------------------- -/
/- `sys_mprotect`.                                                    -/
/- ----------------------------------------------------------------- -/

/-- The validation loop of `sys_mprotect`: starting from
`last_page = start_page - 1` (32-bit, so 0 wraps to `0xFFFFFFFF`), an entry
overlapping the range extends `last_page` to its `end_page` only when its
`start_page` is exactly `last_page + 1`; any other overlap breaks out. -/
def mprotectValidate (startP endP : Nat) : List MapEntry → Nat → Nat
  | [], last => last
  | e :: es, last =>
    if endP < e.start_page then last
    else if startP ≤ e.end_page then
      if e.start_page = (last + 1) % U32 then mprotectValidate startP endP es e.end_page
      else last
    else mprotectValidate startP endP es last

/-- One `VirtualProtect` call of the mprotect flush: write the host
protection `protection` over the `n` pages starting at `p`. -/
def hostProtRange (protection : Nat) : Nat → Nat → (Nat → Nat) → (Nat → Nat)
  | _, 0, h => h
  | p, Nat.succ n, h => hostProtRange protection (p + 1) n (updFun h p protection)

/-- The block-crossing inner loop of the mprotect flush (mm.c:747-751): for
each block index `k` from `start_block` while `k < end_block`, protect the
pages from `j` to the end of block `k` (`PAGES_PER_BLOCK -
GET_PAGE_IN_BLOCK(j)` pages) and advance `j` to the first page of block
`k + 1`.  The fuel is `end_block - start_block`; returned are the final
batch cursor `j` and the updated host protections. -/
def mprotFlushBlocks (protection : Nat) : Nat → Nat → Nat → (Nat → Nat) → Nat × (Nat → Nat)
  | 0, j, _, h => (j, h)
  | Nat.succ m, j, k, h =>
    mprotFlushBlocks protection m ((k + 1) * PAGES_PER_BLOCK) (k + 1)
      (hostProtRange protection j (PAGES_PER_BLOCK - j % PAGES_PER_BLOCK) h)

/-- The host-protection loop of `sys_mprotect` (mm.c:734-754), with its
batching rendered intact.  The outer index `i` runs from `start_page` to
`end_page + 1`; a flush fires when `page_prot[i]` differs from
`page_prot[j]` or `i` passes the end.  The protection applied to the whole
flushed range `[j, i)` comes from the stored protection of page `j`: the
requested protection, with the write bit masked off (`prot & ~PROT_WRITE`
on a 32-bit int) when page `j` lacks stored write permission.  The batch
cursor `j` advances only inside the block-crossing inner loop (mm.c:750),
so a flush confined to one 64 KiB block leaves `j` where it was and later
flushes reuse the stale `page_prot[j]` and re-cover the pages from the
stale `j` on.  Arguments: requested protection, `end_page`, `i`, `j`, fuel
(`end_page + 2 - start_page`), state. -/
def mprotHostGo (prot endP : Nat) : Nat → Nat → Nat → MMState → MMState
  | _, _, 0, s => s
  | i, j, Nat.succ n, s =>
    if s.page_prot i ≠ s.page_prot j ∨ i = endP + 1 then
      let protection := if s.page_prot j &&& PROT_WRITE ≠ 0 then prot_linux2win prot
                        else prot_linux2win (prot &&& (U32 - 1 - PROT_WRITE))
      let r := mprotFlushBlocks protection
        (GET_BLOCK_OF_PAGE (i - 1) - GET_BLOCK_OF_PAGE j) j (GET_BLOCK_OF_PAGE j) s.host_prot
      let h2 := if r.1 < i then hostProtRange protection r.1 (i - r.1) r.2 else r.2
      mprotHostGo prot endP (i + 1) r.1 n { s with host_prot := h2 }
    else
      mprotHostGo prot endP (i + 1) j n s

/-- The final loop of `sys_mprotect` storing the new protection byte. -/
def setProtGo (prot : Nat) : Nat → Nat → MMState → MMState
  | _, 0, s => s
  | p, Nat.succ n, s => setProtGo prot (p + 1) n { s with page_prot := updFun s.page_prot p prot }

/-- `sys_mprotect`. -/
def sys_mprotect (addr length0 prot : Nat) (s : MMState) : Int × MMState :=
  if addr % PAGE_SIZE ≠ 0 then (-(EINVAL : Int), s)
  else
    let length := alignToPage length0
    if rangeBad addr length then (-(EINVAL : Int), s)
    else
      let startP := GET_PAGE addr
      let endP := GET_PAGE (sub32 (addr + length) 1)
      let last := mprotectValidate startP endP s.map_list (sub32 startP 1)
      if last < endP then (-(ENOMEM : Int), s)
      else
        let s1 := mprotHostGo prot endP startP startP (endP + 2 - startP) s
        (0, setProtGo prot startP (endP + 1 - startP) s1)

/- ----------------------------------------------------------------- -/
/- `brk`.                                                             -/
/- ----------------------------------------------------------------- -/

/-- `mm_update_brk`: `mm->brk = max(mm->brk, brk)`. -/
def mm_update_brk (b : Nat) (s : MMState) : MMState :=
  { s with brk := max s.brk b }

/-- `sys_brk`.  The growth path goes through `sys_mmap(brk, addr - brk, ...,
MAP_FIXED | MAP_ANONYMOUS | MAP_PRIVATE, -1, 0)`; `vfs_get(-1)` yields no
file, and the offset 0 passes `sys_mmap`'s alignment check, so the call is
modelled directly as `mm_mmap` with no file. -/
def sys_brk (fail : Nat → Bool) (addr0 : Nat) (s : MMState) : Int × MMState :=
  let brkA := alignToPage s.brk
  let addrA := alignToPage addr0
  if s.brk < addrA then
    let r := mm_mmap fail brkA (sub32 addrA brkA) (PROT_READ ||| PROT_WRITE ||| PROT_EXEC)
      (MAP_FIXED ||| MAP_ANONYMOUS ||| MAP_PRIVATE) false 0 s
    if r.1 < 0 then (-(ENOMEM : Int), r.2)
    else (Int.ofNat addrA, { r.2 with brk := addrA })
  else (Int.ofNat s.brk, s)

/- ----------------------------------------------------------------- -/
/- `mm_handle_page_fault`.                                            -/
/- ----------------------------------------------------------------- -/

/-- The protection-restoring loop of the fault handler: re-apply the host
rendering of the stored protection of every page of the block.  Arguments:
first page, number of pages, state. -/
def restorePagesGo : Nat → Nat → MMState → MMState
  | _, 0, s => s
  | p, Nat.succ n, s =>
    restorePagesGo (p + 1) n
      { s with host_prot := updFun s.host_prot p (prot_linux2win (s.page_prot p)) }

/-- `mm_handle_page_fault`.  `hc` is the host's outstanding-handle count per
section handle (`NtQueryObject(... ObjectBasicInformation ...).HandleCount`,
modelled as succeeding).  When the count is 1 the protections are simply
restored; otherwise `duplicate_section` builds a fresh section with the old
contents (contents are guest memory, outside the state), the old view is
unmapped, the old handle closed, and the fresh section mapped in place. -/
def mm_handle_page_fault (hc : Nat → Nat) (addr : Nat) (s : MMState) : Bool × MMState :=
  if ADDRESS_SPACE_HIGH ≤ addr then (false, s)
  else if s.page_prot (GET_PAGE addr) &&& PROT_WRITE = 0 then (false, s)
  else
    match s.block_section_handle (GET_BLOCK addr) with
    | none => (false, s)
    | some h =>
      let s1 :=
        if hc h = 1 then s
        else { s with
               block_section_handle := updFun s.block_section_handle (GET_BLOCK addr) (some s.next_handle)
               next_handle := s.next_handle + 1 }
      (true, restorePagesGo (GET_FIRST_PAGE_OF_BLOCK (GET_BLOCK addr)) PAGES_PER_BLOCK s1)

/- ----------------------------------------------------------------- -/
/- The dynamic binary translator (`src/dbt/x86.c`).                   -/
/- ----------------------------------------------------------------- -/

/-- `DBT_BLOCK_HASH_BUCKETS`. -/
def DBT_BLOCK_HASH_BUCKETS : Nat := 4096

/-- `DBT_BLOCK_MAXSIZE`. -/
def DBT_BLOCK_MAXSIZE : Nat := 1024

/-- `DBT_OUT_ALIGN`. -/
def DBT_OUT_ALIGN : Nat := 16

/-- Modelled from the spec: the capacity of the block arena
(`MAX_DBT_BLOCKS = DBT_BLOCKS_SIZE / sizeof(struct dbt_block)`); the size
constant lives in the missing header `dbt/x86.h`.  Any positive value works
for the claims. -/
def MAX_DBT_BLOCKS : Nat := 65536

/-- Modelled from the spec: the code-cache size (`DBT_CACHE_SIZE`, from the
missing header).  Any value `≥ DBT_BLOCK_MAXSIZE` works for the claims. -/
def DBT_CACHE_SIZE : Nat := 16777216

/-- One `struct dbt_block`: translated guest `pc` and the host start address
of its emitted code (an offset into the code cache). -/
structure DbtBlock where
  pc : Nat
  start : Nat
deriving DecidableEq

/-- `struct dbt_data`: the hash buckets of translated blocks, the block
arena fill count, and the two code-cache cursors (as offsets from
`dbt_cache`; `out` grows up, `cacheEnd` grows down as trampolines are
carved from the top). -/
structure DbtState where
  block_hash : Nat → List DbtBlock
  blocks_count : Nat
  out : Nat
  cacheEnd : Nat

/-- The state after `dbt_init()`. -/
def dbt_init_state : DbtState :=
  { block_hash := fun _ => []
    blocks_count := 0
    out := 0
    cacheEnd := DBT_CACHE_SIZE }

/-- `dbt_flush`: clear every bucket, reset the arena count and cursors. -/
def dbt_flush (_s : DbtState) : DbtState :=
  { block_hash := fun _ => []
    blocks_count := 0
    out := 0
    cacheEnd := DBT_CACHE_SIZE }

/-- `hash_block_pc`: `(pc + (pc << 3) + (pc << 9)) % DBT_BLOCK_HASH_BUCKETS`
on a 32-bit `size_t`; since 4096 divides `2^32` the inner wraparound does
not change the result, but it is kept for fidelity. -/
def hash_block_pc (pc : Nat) : Nat :=
  (pc + pc * 8 + pc * 512) % U32 % DBT_BLOCK_HASH_BUCKETS

/-- `((size_t)dbt->out + DBT_OUT_ALIGN - 1) & -(size_t)DBT_OUT_ALIGN`. -/
def align16 (x : Nat) : Nat := (x + DBT_OUT_ALIGN - 1) / DBT_OUT_ALIGN * DBT_OUT_ALIGN

/-- `find_block`: first block with the given `pc` in its hash bucket. -/
def find_block (s : DbtState) (pc : Nat) : Option DbtBlock :=
  (s.block_hash (hash_block_pc pc)).find? (fun b => b.pc == pc)

/-- `dbt_translate`: allocate a block (flushing everything first when the
block arena is exhausted or fewer than `DBT_BLOCK_MAXSIZE` bytes remain
between the cursors), 16-align the output cursor, and emit the translated
code.  The translation itself reads guest code, which is outside the state;
its two observable footprints are the number of bytes emitted (`emitLen`)
and the number of 16-byte direct trampolines carved from the cache top
(`tramps`), passed as parameters. -/
def dbt_translate (pc emitLen tramps : Nat) (s : DbtState) : DbtBlock × DbtState :=
  let s1 := if s.blocks_count = MAX_DBT_BLOCKS ∨ s.cacheEnd - s.out < DBT_BLOCK_MAXSIZE
            then dbt_flush s else s
  let start := align16 s1.out
  let blk : DbtBlock := { pc := pc, start := start }
  (blk, { s1 with
          blocks_count := s1.blocks_count + 1
          out := start + emitLen
          cacheEnd := s1.cacheEnd - DBT_OUT_ALIGN * tramps })

/-- `dbt_find_next`: look the pc up in its bucket, and only on a miss
translate it and prepend the new block to the bucket (`forward_list_add`;
the spec fixes last-in-first-found bucket order). -/
def dbt_find_next (pc emitLen tramps : Nat) (s : DbtState) : Nat × DbtState :=
  match (s.block_hash (hash_block_pc pc)).find? (fun b => b.pc == pc) with
  | some blk => (blk.start, s)
  | none =>
    let t := dbt_translate pc emitLen tramps s
    (t.1.start,
     { t.2 with block_hash := updFun t.2.block_hash (hash_block_pc pc)
                  (t.1 :: t.2.block_hash (hash_block_pc pc)) })

/-- A trace of `dbt_find_next` calls: each element carries the guest pc and
the translation footprint `(emitLen, tramps)` of a miss. -/
def dbt_run_ops : List (Nat × Nat × Nat) → DbtState → DbtState
  | [], s => s
  | op :: ops, s => dbt_run_ops ops (dbt_find_next op.1 op.2.1 op.2.2 s).2

/- ----------------------------------------------------------------- -/
/- The code emitter: ModR/M + SIB synthesis (`gen_modrm_sib`).        -/
/- ----------------------------------------------------------------- -/

/-- `MODRM_PURE_REGISTER`. -/
def MODRM_PURE_REGISTER : Nat := 1

/-- `struct modrm_rm_t`: a semantic operand.  `base`/`index` are `int`s with
`-1` meaning absent; register 4 is the stack pointer. -/
structure ModrmRm where
  base : Int
  index : Int
  scale : Nat
  disp : Int
  flags : Nat
deriving DecidableEq

/-- The four little-endian bytes of a `disp32` (`gen_dword`). -/
def dwordBytes (x : Int) : List Nat :=
  [(x % (2 ^ 32 : Int)).toNat % 256,
   (x % (2 ^ 32 : Int)).toNat / 2 ^ 8 % 256,
   (x % (2 ^ 32 : Int)).toNat / 2 ^ 16 % 256,
   (x % (2 ^ 32 : Int)).toNat / 2 ^ 24 % 256]

/-- `gen_modrm`: the byte `(mod << 6) + (r << 3) + rm`. -/
def gen_modrm (md r rm : Nat) : Nat := md * 64 + r * 8 + rm

/-- `gen_sib`: the byte `(scale << 6) + (index << 3) + base`. -/
def gen_sib (base index scale : Nat) : Nat := scale * 64 + index * 8 + base

/-- `gen_modrm_sib`: the bytes emitted for operand `rm` with register field
`r`.  An operand using the stack pointer as index is a caller bug: the C
code logs an error and emits nothing. -/
def gen_modrm_sib (r : Nat) (rm : ModrmRm) : List Nat :=
  if rm.flags = MODRM_PURE_REGISTER then [gen_modrm 3 r rm.base.toNat]
  else if rm.index = 4 then []
  else if rm.base = -1 ∧ rm.index = -1 then
    gen_modrm 0 r 5 :: dwordBytes rm.disp
  else if rm.base = -1 then
    gen_modrm 0 r 4 :: gen_sib 5 rm.index.toNat rm.scale :: dwordBytes rm.disp
  else if rm.base = 4 ∨ rm.index ≠ -1 then
    gen_modrm 2 r 4 :: gen_sib rm.base.toNat (if rm.index = -1 then 4 else rm.index.toNat) rm.scale :: dwordBytes rm.disp
  else
    gen_modrm 2 r rm.base.toNat :: dwordBytes rm.disp

/-- The ModR/M+SIB synthesis exactly as claim C9 (spec §4.2) describes it:
`mod=3` for a register-only operand; `mod=0, rm=5, disp32` with no base and
no index; `mod=2, rm=4`, SIB, `disp32` whenever the base is the stack
pointer or an index is present; and `mod=2, rm=base, disp32` otherwise.
The SIB byte fields follow the emitter's own conventions (base field 5
encodes an absent base, index field 4 an absent index). -/
def claimC9_modrm_sib (r : Nat) (rm : ModrmRm) : List Nat :=
  if rm.flags = MODRM_PURE_REGISTER then [gen_modrm 3 r rm.base.toNat]
  else if rm.base = -1 ∧ rm.index = -1 then
    gen_modrm 0 r 5 :: dwordBytes rm.disp
  else if rm.base = 4 ∨ rm.index ≠ -1 then
    gen_modrm 2 r 4 ::
      gen_sib (if rm.base = -1 then 5 else rm.base.toNat)
        (if rm.index = -1 then 4 else rm.index.toNat) rm.scale :: dwordBytes rm.disp
  else
    gen_modrm 2 r rm.base.toNat :: dwordBytes rm.disp

/-- The amended synthesis description: like `claimC9_modrm_sib` but with the
missing case restored — an operand with an index but no base is emitted as
`mod=0, rm=4`, a SIB whose base field is 5, then `disp32` (so the
displacement is absolute, not relative to a base register). -/
def claimC9_amended_modrm_sib (r : Nat) (rm : ModrmRm) : List Nat :=
  if rm.flags = MODRM_PURE_REGISTER then [gen_modrm 3 r rm.base.toNat]
  else if rm.base = -1 ∧ rm.index = -1 then
    gen_modrm 0 r 5 :: dwordBytes rm.disp
  else if rm.base = -1 then
    gen_modrm 0 r 4 :: gen_sib 5 rm.index.toNat rm.scale :: dwordBytes rm.disp
  else if rm.base = 4 ∨ rm.index ≠ -1 then
    gen_modrm 2 r 4 ::
      gen_sib rm.base.toNat (if rm.index = -1 then 4 else rm.index.toNat) rm.scale :: dwordBytes rm.disp
  else
    gen_modrm 2 r rm.base.toNat :: dwordBytes rm.disp

/-- The operand on which the C9 description misses a case: an index
register with no base register. -/
def rmC9 : ModrmRm := { base := -1, index := 1, scale := 0, disp := 0, flags := 0 }

/- ----------------------------------------------------------------- -/
/- Concrete states and traces used by the claim theorems.             -/
/- ----------------------------------------------------------------- -/

/-- One-page fixed anonymous private mapping at `0x10000000` (the entry the
list-insertion bug loses). -/
def opA (s : MMState) : MMState :=
  (mm_mmap nofail 0x10000000 0x1000 3 (MAP_FIXED ||| MAP_ANONYMOUS ||| MAP_PRIVATE) false 0 s).2

/-- One-page fixed anonymous private mapping at `0x08000000`, wholly below
the entry of `opA`. -/
def opB (s : MMState) : MMState :=
  (mm_mmap nofail 0x08000000 0x1000 3 (MAP_FIXED ||| MAP_ANONYMOUS ||| MAP_PRIVATE) false 0 s).2

/-- Unmap of the page mapped by `opB`. -/
def opU (s : MMState) : MMState :=
  (mm_munmap 0x08000000 0x1000 s).2

/-- The map entry created by `opA`. -/
def entryA : MapEntry := { start_page := 0x10000, end_page := 0x10000, f := false, offset_pages := 0 }

/-- The map entry created by `opB`. -/
def entryB : MapEntry := { start_page := 0x8000, end_page := 0x8000, f := false, offset_pages := 0 }

/-- The 64 KiB block holding the page of `opA`. -/
def blkA : Nat := 0x1000

/-- The 64 KiB block holding the page of `opB`. -/
def blkB : Nat := 0x800

/-- The state exhibiting the C4 window-straddle: a fixed mapping of
`0x20000` bytes at `0x03FF0000`, whose single map entry spans the lower
bound `0x04000000` of the non-heap allocation window. -/
def stateC4 : MMState :=
  (mm_mmap nofail 0x03FF0000 0x20000 3 (MAP_FIXED ||| MAP_ANONYMOUS ||| MAP_PRIVATE) false 0 initState).2

/-- The map entry of `stateC4`. -/
def entryC4 : MapEntry := { start_page := 0x3FF0, end_page := 0x400F, f := false, offset_pages := 0 }

/-- A state with a single five-page anonymous mapping over pages
`[0x4000, 0x4004]` (addresses `[0x04000000, 0x04005000)`), its block ledger
and page protections filled in consistently. -/
def stateC5 : MMState :=
  { brk := 0
    map_list := [{ start_page := 0x4000, end_page := 0x4004, f := false, offset_pages := 0 }]
    page_prot := fun p => if 0x4000 ≤ p ∧ p ≤ 0x4004 then 3 else 0
    block_page_count := fun b => if b = 0x400 then 5 else 0
    block_section_handle := fun b => if b = 0x400 then some 0 else none
    next_handle := 1
    host_prot := fun p => if 0x4000 ≤ p ∧ p ≤ 0x4004 then PAGE_READWRITE else 0 }

/-- A state with the whole 64 KiB block `0x1000` (addresses starting at
`0x10000000`) mapped read-write and backed by section handle 0. -/
def stateC7 : MMState :=
  { brk := 0
    map_list := [{ start_page := 0x10000, end_page := 0x1000F, f := false, offset_pages := 0 }]
    page_prot := fun p => if GET_BLOCK_OF_PAGE p = 0x1000 then 3 else 0
    block_page_count := fun b => if b = 0x1000 then 16 else 0
    block_section_handle := fun b => if b = 0x1000 then some 0 else none
    next_handle := 1
    host_prot := fun _ => 0 }

/-- The initial state with the program break placed (page-aligned) at
`0x05000000`, as the ELF loader would via `mm_update_brk`. -/
def stateC6 : MMState := mm_update_brk 0x05000000 initState

/- ----------------------------------------------------------------- -/
/- Predicates used in the statements.                                 -/
/- ----------------------------------------------------------------- -/

/-- Every map entry is a well-formed inclusive range. -/
def entriesWF (l : List MapEntry) : Prop := ∀ e ∈ l, e.start_page ≤ e.end_page

/-- The map list is sorted with pairwise disjoint ranges: each entry ends
strictly before the next one starts. -/
def entriesOrdered (l : List MapEntry) : Prop :=
  l.Chain' (fun a b => a.end_page < b.start_page)

/-- No entry straddles the lower bound of the allocation window, and every
entry starting inside the window also ends inside it. -/
def windowClean (lowP highP : Nat) (l : List MapEntry) : Prop :=
  ∀ e ∈ l, (e.start_page < lowP → e.end_page < lowP) ∧
    (lowP ≤ e.start_page → e.end_page < highP)

/-- First page of the allocation window `mm_mmap` scans for a non-fixed
request: the heap window when `__MAP_HEAP` is set, the main window
otherwise. -/
def mmapWindowLow (flags : Nat) : Nat :=
  if flags &&& MAP_HEAP ≠ 0 then GET_PAGE HEAP_BASE else GET_PAGE ADDRESS_ALLOCATION_LOW

/-- One past the last page of the allocation window of a non-fixed
request. -/
def mmapWindowHigh (flags : Nat) : Nat :=
  if flags &&& MAP_HEAP ≠ 0 then GET_PAGE ADDRESS_ALLOCATION_LOW else GET_PAGE ADDRESS_ALLOCATION_HIGH

/-- The uniqueness invariant of the translated-block index: every block
sits in the bucket its pc hashes to, and within a bucket the guest pcs are
pairwise distinct — so at most one block exists per `guest_pc`. -/
def DbtInv (s : DbtState) : Prop :=
  ∀ i, (∀ b ∈ s.block_hash i, hash_block_pc b.pc = i) ∧
    (s.block_hash i).Pairwise (fun a b => a.pc ≠ b.pc)

/- ----------------------------------------------------------------- -/
/- Helper lemmas.                                                     -/
/- ----------------------------------------------------------------- -/

theorem updFun_self {α : Type} (f : Nat → α) (i : Nat) (v : α) : updFun f i v i = v := by
  simp [updFun]

theorem updFun_other {α : Type} (f : Nat → α) (i j : Nat) (v : α) (h : j ≠ i) :
    updFun f i v j = f j := by
  simp [updFun, h]

theorem sub32_eq_sub (a b : Nat) (ha : a < U32) (hb : b ≤ a) : sub32 a b = a - b := by
  unfold sub32 U32 at *
  omega

theorem alignToPage_idem (x : Nat) : alignToPage (alignToPage x) = alignToPage x := by
  unfold alignToPage U32 PAGE_SIZE
  omega

theorem alignToPage_mono (x y : Nat) (hy : y ≤ x) (hx : x ≤ 0xFFFFF000) :
    alignToPage y ≤ alignToPage x := by
  unfold alignToPage U32 PAGE_SIZE
  omega

theorem alignToPage_ge (x : Nat) (hx : x ≤ 0xFFFFF000) : x ≤ alignToPage x := by
  unfold alignToPage U32 PAGE_SIZE
  omega

/- ----------------------------------------------------------------- -/
/- Claim C1.                                                          -/
/- ----------------------------------------------------------------- -/

/-- C1: after a successful fixed one-page `mm_mmap` at `0x10000000` the map
list is `[entryA]`; a second successful fixed one-page `mm_mmap` at
`0x08000000` — a range wholly before the head entry, overlapping nothing, and
unmapping nothing — leaves the list as `[entryB]` alone: the head entry
`entryA`, never unmapped, is no longer reachable from the list head.  This
evaluates the code at the failing input of the claim: the head-insertion
case of `mm_mmap` links the new entry to `map_list->next` and loses the old
head. -/
theorem claim_C1_lost_head_entry :
    (opA initState).map_list = [entryA] ∧
    (mm_mmap nofail 0x08000000 0x1000 3 (MAP_FIXED ||| MAP_ANONYMOUS ||| MAP_PRIVATE) false 0
      (opA initState)).1 = 0x08000000 ∧
    (opB (opA initState)).map_list = [entryB] := by
  refine ⟨by decide, by decide, by decide⟩

/- ----------------------------------------------------------------- -/
/- Claim C5.                                                          -/
/- ----------------------------------------------------------------- -/

/-- C5: the page range of `mprotect(0x04001000, 0x1000, PROT_READ)` on
`stateC5` is the single page `0x4001`, fully backed by the map entry
`[0x4000, 0x4004]`; yet `sys_mprotect` returns `-ENOMEM` (leaving the state
unchanged), because its validation loop accepts a first overlapping entry
only when the entry starts exactly at the requested start page.  This
evaluates the code at the failing input of the claim. -/
theorem claim_C5_mprotect_rejects_backed_range :
    (∃ e ∈ stateC5.map_list,
        e.start_page ≤ GET_PAGE 0x04001000 ∧
        GET_PAGE (0x04001000 + alignToPage 0x1000 - 1) ≤ e.end_page) ∧
    (sys_mprotect 0x04001000 0x1000 1 stateC5).1 = -(ENOMEM : Int) ∧
    (sys_mprotect 0x04001000 0x1000 1 stateC5).2 = stateC5 := by
  refine ⟨by decide, by decide, rfl⟩

/- ----------------------------------------------------------------- -/
/- Claim C9.                                                          -/
/- ----------------------------------------------------------------- -/

/-- C9 counterexample: on the operand `[index*1 + disp]` — an index register
but no base register — the emitter does not produce the `mod=2, rm=4`
encoding the claim prescribes for "an index is present"; it emits
`mod=0, rm=4` with SIB base field 5 (byte `0x04`, not `0x84`). -/
theorem claim_C9_counterexample :
    gen_modrm_sib 0 rmC9 ≠ claimC9_modrm_sib 0 rmC9 := by decide

/-- C9 (amended): for every operand whose index is not the stack pointer,
the emitted bytes follow the claimed case analysis extended with the missing
case — no base but an index present gives `mod=0, rm=4`, a SIB with base
field 5, then `disp32`; the remaining four cases are exactly as claimed. -/
theorem claim_C9_modrm_sib_cases (r : Nat) (rm : ModrmRm) (h : rm.index ≠ 4) :
    gen_modrm_sib r rm = claimC9_amended_modrm_sib r rm := by
  unfold gen_modrm_sib claimC9_amended_modrm_sib
  by_cases h1 : rm.flags = MODRM_PURE_REGISTER
  · simp [h1]
  · simp [h1, h]

/-- Witness for `claim_C9_modrm_sib_cases` at the operand `[ecx*1]`. -/
theorem claim_C9_modrm_sib_cases_witness :
    rmC9.index ≠ 4 ∧ gen_modrm_sib 0 rmC9 = claimC9_amended_modrm_sib 0 rmC9 :=
  ⟨by decide, claim_C9_modrm_sib_cases 0 rmC9 (by decide)⟩

/- ----------------------------------------------------------------- -/
/- Claim C4: counterexample.                                          -/
/- ----------------------------------------------------------------- -/

/-- C4 counterexample: on `stateC4` — reached from the initial state by one
fixed mapping whose entry `[0x3FF0, 0x400F]` straddles the lower bound of
the main allocation window — a non-fixed `mm_mmap` of one page succeeds and
returns `0x04000000`, whose page `0x4000` overlaps that entry: the entry's
`start_page` lies below `GET_PAGE(ADDRESS_ALLOCATION_LOW)`, so the
`find_free_pages` scan skips it entirely. -/
theorem claim_C4_counterexample :
    stateC4.map_list = [entryC4] ∧
    (mm_mmap nofail 0 0x1000 3 (MAP_ANONYMOUS ||| MAP_PRIVATE) false 0 stateC4).1 =
      0x04000000 ∧
    entryC4.start_page ≤ GET_PAGE 0x04000000 ∧
    GET_PAGE 0x04000000 + GET_PAGE (alignToPage 0x1000) ≤ entryC4.end_page := by
  refine ⟨by decide, by decide, by decide, by decide⟩

/- ----------------------------------------------------------------- -/
/- Claim C10.                                                         -/
/- ----------------------------------------------------------------- -/

theorem munmapEntries_no_conflict (uS uE : Nat) :
    ∀ (l : List MapEntry) (c : Nat → Nat) (h : Nat → Option Nat),
      (∀ e ∈ l, e.end_page < uS ∨ uE < e.start_page) →
      munmapEntries uS uE l c h = (l, c, h) := by
  intro l
  induction l with
  | nil => intro c h _; rfl
  | cons e es ih =>
    intro c h hall
    have he := hall e (by simp)
    unfold munmapEntries
    by_cases h1 : uE < e.start_page
    · simp [h1]
    · have h2 : e.end_page < uS := by
        rcases he with h' | h'
        · exact h'
        · omega
      have h3 : ¬ e.end_page < uS → False := fun hc => hc h2
      rw [if_neg h1, if_pos h2]
      rw [ih c h (fun e' he' => hall e' (List.mem_cons_of_mem _ he'))]

/-- C10: `mm_munmap` returns `-EINVAL` and leaves the whole state (map
list, page protections, page counts, section handles) unchanged whenever
the address is not 4 KiB aligned or the page-rounded range wraps or has an
endpoint outside `[0, 0x80000000)`; the length itself is only rounded up to
a page (the call behaves exactly like the call with the rounded length);
and unmapping a valid range that overlaps no map entry returns 0 and
changes nothing. -/
theorem claim_C10_munmap_errors (addr length0 : Nat) (s : MMState) :
    (addr % PAGE_SIZE ≠ 0 → mm_munmap addr length0 s = (-(EINVAL : Int), s)) ∧
    (rangeBad addr (alignToPage length0) → mm_munmap addr length0 s = (-(EINVAL : Int), s)) ∧
    mm_munmap addr length0 s = mm_munmap addr (alignToPage length0) s ∧
    (addr % PAGE_SIZE = 0 → ¬ rangeBad addr (alignToPage length0) →
      (∀ e ∈ s.map_list, e.end_page < GET_PAGE addr ∨
        GET_PAGE (sub32 (addr + alignToPage length0) 1) < e.start_page) →
      mm_munmap addr length0 s = (0, s)) := by
  refine ⟨?_, ?_, ?_, ?_⟩
  · intro h; unfold mm_munmap; rw [if_pos h]
  · intro h
    unfold mm_munmap
    by_cases ha : addr % PAGE_SIZE ≠ 0
    · rw [if_pos ha]
    · rw [if_neg ha, if_pos h]
  · unfold mm_munmap
    rw [alignToPage_idem]
  · intro ha hr hnc
    unfold mm_munmap
    rw [if_neg (by simp [ha]), if_neg hr]
    simp only [munmapEntries_no_conflict _ _ _ _ _ hnc]

/-- Witness for `claim_C10_munmap_errors`: unmapping one page at `0x1000`
in the initial (empty) state succeeds and changes nothing. -/
theorem claim_C10_munmap_errors_witness :
    mm_munmap 0x1000 0x1000 initState = (0, initState) :=
  (claim_C10_munmap_errors 0x1000 0x1000 initState).2.2.2 (by decide) (by decide)
    (by intro e he; simp [initState] at he)

/- ----------------------------------------------------------------- -/
/- Claim C3.                                                          -/
/- ----------------------------------------------------------------- -/

theorem allocSectionsGo_fail_next (fail : Nat → Bool) (c : Nat → Nat) (sB n0 : Nat) :
    ∀ (n i : Nat) (h : Nat → Option Nat) (next : Nat),
      (allocSectionsGo fail c sB n0 i n h next).1 = false →
      (allocSectionsGo fail c sB n0 i n h next).2.2 = n0 := by
  intro n
  induction n with
  | zero => intro i h next hf; simp [allocSectionsGo] at hf
  | succ m ih =>
    intro i h next hf
    unfold allocSectionsGo at hf ⊢
    by_cases h1 : c i = 0
    · by_cases h2 : fail i
      · simp [h1, h2]
      · simp only [h1, h2, if_pos, if_true, if_neg, if_false, Bool.false_eq_true] at hf ⊢
        exact ih _ _ _ (by simpa using hf)
    · simp only [h1, if_neg, if_false] at hf ⊢
      exact ih _ _ _ (by simpa using hf)

theorem allocSectionsGo_fail_handles (fail : Nat → Bool) (c : Nat → Nat) (sB n0 : Nat)
    (h0 : Nat → Option Nat) (hclean : ∀ j, c j = 0 → h0 j = none) :
    ∀ (n i : Nat) (h : Nat → Option Nat) (next : Nat),
      sB ≤ i →
      (∀ j, ¬(sB ≤ j ∧ j < i ∧ c j = 0) → h j = h0 j) →
      (allocSectionsGo fail c sB n0 i n h next).1 = false →
      ∀ j, (allocSectionsGo fail c sB n0 i n h next).2.1 j = h0 j := by
  intro n
  induction n with
  | zero => intro i h next _ _ hf; simp [allocSectionsGo] at hf
  | succ m ih =>
    intro i h next hsb hout hf j
    unfold allocSectionsGo at hf ⊢
    by_cases h1 : c i = 0
    · by_cases h2 : fail i
      · simp only [h1, h2, if_pos, if_true]
        by_cases h3 : sB ≤ j ∧ j < i ∧ c j = 0
        · rw [if_pos h3, hclean j h3.2.2]
        · rw [if_neg h3]; exact hout j h3
      · simp only [h1, h2, if_pos, if_true, if_neg, if_false, Bool.false_eq_true] at hf ⊢
        refine ih (i + 1) _ _ (by omega) ?_ (by simpa using hf) j
        intro j' hj'
        by_cases h4 : j' = i
        · exfalso; exact hj' ⟨by omega, by omega, by rw [h4]; exact h1⟩
        · rw [updFun_other _ _ _ _ h4]
          exact hout j' (fun hc => hj' ⟨hc.1, by omega, hc.2.2⟩)
    · simp only [h1, if_neg, if_false] at hf ⊢
      refine ih (i + 1) _ _ (by omega) ?_ (by simpa using hf) j
      intro j' hj'
      refine hout j' (fun hc => ?_)
      by_cases h4 : j' = i
      · rw [h4] at hc; exact h1 hc.2.2
      · exact hj' ⟨hc.1, by omega, hc.2.2⟩

/-- C3: the error behaviour of `mm_mmap`.  A zero length, a bad or wrapping
(page-rounded) address range, `MAP_SHARED`, or `MAP_ANONYMOUS` together with
a file all yield `-EINVAL`; a file-backed request without a file yields
`-EBADF`; a non-fixed request for which no free range exists yields
`-ENOMEM`; a fixed request at a non-page-aligned address yields `-EINVAL` —
in every case with the state unchanged.  And when host section creation or
mapping fails mid-call (final conjunct, stated on the resolved-address stage
`mmapResolved` common to the fixed and non-fixed paths), every section
created earlier in that same call is unmapped, closed and its handle
cleared: provided the state after the conflict unmapping satisfies the
ledger invariant `page count 0 → no handle`, the call returns `-ENOMEM`
with exactly that state. -/
theorem claim_C3_mmap_errors (fail : Nat → Bool) (addr0 length0 prot flags : Nat)
    (hasFile : Bool) (offp : Nat) (s : MMState) :
    (length0 = 0 → mm_mmap fail addr0 length0 prot flags hasFile offp s = (-(EINVAL : Int), s)) ∧
    (rangeBad addr0 (alignToPage length0) →
      mm_mmap fail addr0 length0 prot flags hasFile offp s = (-(EINVAL : Int), s)) ∧
    (flags &&& MAP_SHARED ≠ 0 →
      mm_mmap fail addr0 length0 prot flags hasFile offp s = (-(EINVAL : Int), s)) ∧
    (flags &&& MAP_ANONYMOUS ≠ 0 → hasFile = true →
      mm_mmap fail addr0 length0 prot flags hasFile offp s = (-(EINVAL : Int), s)) ∧
    (length0 ≠ 0 → ¬ rangeBad addr0 (alignToPage length0) → flags &&& MAP_SHARED = 0 →
      flags &&& MAP_ANONYMOUS = 0 → hasFile = false →
      mm_mmap fail addr0 length0 prot flags hasFile offp s = (-(EBADF : Int), s)) ∧
    (length0 ≠ 0 → ¬ rangeBad addr0 (alignToPage length0) → flags &&& MAP_SHARED = 0 →
      ¬ (flags &&& MAP_ANONYMOUS ≠ 0 ∧ hasFile = true) →
      ¬ (flags &&& MAP_ANONYMOUS = 0 ∧ hasFile = false) →
      flags &&& MAP_FIXED = 0 →
      (if flags &&& MAP_HEAP ≠ 0 then
        find_free_pages (GET_PAGE (alignToPage length0)) HEAP_BASE ADDRESS_ALLOCATION_LOW s.map_list
      else
        find_free_pages (GET_PAGE (alignToPage length0)) ADDRESS_ALLOCATION_LOW ADDRESS_ALLOCATION_HIGH s.map_list) = 0 →
      mm_mmap fail addr0 length0 prot flags hasFile offp s = (-(ENOMEM : Int), s)) ∧
    (length0 ≠ 0 → ¬ rangeBad addr0 (alignToPage length0) → flags &&& MAP_SHARED = 0 →
      ¬ (flags &&& MAP_ANONYMOUS ≠ 0 ∧ hasFile = true) →
      ¬ (flags &&& MAP_ANONYMOUS = 0 ∧ hasFile = false) →
      flags &&& MAP_FIXED ≠ 0 → addr0 % PAGE_SIZE ≠ 0 →
      mm_mmap fail addr0 length0 prot flags hasFile offp s = (-(EINVAL : Int), s)) ∧
    (∀ (a ln pr fl : Nat) (hf : Bool) (op : Nat) (t t1 : MMState),
      t1 = (if fl &&& MAP_FIXED ≠ 0 then (mm_munmap a ln t).2 else t) →
      (∀ j, t1.block_page_count j = 0 → t1.block_section_handle j = none) →
      (allocSectionsGo fail t1.block_page_count (GET_BLOCK a) t1.next_handle (GET_BLOCK a)
        (GET_BLOCK (sub32 (a + ln) 1) + 1 - GET_BLOCK a)
        t1.block_section_handle t1.next_handle).1 = false →
      mmapResolved fail a ln pr fl hf op t = (-(ENOMEM : Int), t1)) := by
  refine ⟨?_, ?_, ?_, ?_, ?_, ?_, ?_, ?_⟩
  · intro h; unfold mm_mmap; rw [if_pos h]
  · intro h
    by_cases h0 : length0 = 0 <;> simp [mm_mmap, h, h0]
  · intro h
    by_cases h0 : length0 = 0 <;> by_cases h1 : rangeBad addr0 (alignToPage length0) <;>
      simp [mm_mmap, h, h0, h1]
  · intro h hfile
    subst hfile
    by_cases h0 : length0 = 0 <;> by_cases h1 : rangeBad addr0 (alignToPage length0) <;>
      by_cases h2 : flags &&& MAP_SHARED = 0 <;> simp [mm_mmap, h, h0, h1, h2]
  · intro h0 h1 h2 h3 hfile
    subst hfile
    simp [mm_mmap, h0, h1, h2, h3]
  · intro h0 h1 h2 h3 h4 h5 h6
    have hcases : (flags &&& MAP_ANONYMOUS ≠ 0 ∧ hasFile = false) ∨
        (flags &&& MAP_ANONYMOUS = 0 ∧ hasFile = true) := by
      rcases Bool.eq_false_or_eq_true hasFile with hb | hb
      · subst hb; right; exact ⟨by simpa using h3, rfl⟩
      · subst hb; left; exact ⟨by simpa using h4, rfl⟩
    by_cases hh : flags &&& MAP_HEAP ≠ 0
    · rw [if_pos hh] at h6
      rcases hcases with ⟨ha, hb⟩ | ⟨ha, hb⟩ <;> subst hb <;>
        simp [mm_mmap, h0, h1, h2, ha, h5, hh, alignToPage_idem, h6]
    · rw [if_neg hh] at h6
      rcases hcases with ⟨ha, hb⟩ | ⟨ha, hb⟩ <;> subst hb <;>
        simp [mm_mmap, h0, h1, h2, ha, h5, hh, alignToPage_idem, h6]
  · intro h0 h1 h2 h3 h4 h5 h6
    have hcases : (flags &&& MAP_ANONYMOUS ≠ 0 ∧ hasFile = false) ∨
        (flags &&& MAP_ANONYMOUS = 0 ∧ hasFile = true) := by
      rcases Bool.eq_false_or_eq_true hasFile with hb | hb
      · subst hb; right; exact ⟨by simpa using h3, rfl⟩
      · subst hb; left; exact ⟨by simpa using h4, rfl⟩
    rcases hcases with ⟨ha, hb⟩ | ⟨ha, hb⟩ <;> subst hb <;>
      simp [mm_mmap, h0, h1, h2, ha, h5, h6]
  · intro a ln pr fl hf op t t1 ht1 hclean hfail
    unfold mmapResolved
    rw [← ht1]
    simp only [if_pos hfail]
    have hh : (allocSectionsGo fail t1.block_page_count (GET_BLOCK a) t1.next_handle
        (GET_BLOCK a) (GET_BLOCK (sub32 (a + ln) 1) + 1 - GET_BLOCK a)
        t1.block_section_handle t1.next_handle).2.1 = t1.block_section_handle := by
      funext j
      exact allocSectionsGo_fail_handles fail t1.block_page_count (GET_BLOCK a)
        t1.next_handle t1.block_section_handle hclean _ _ _ _ (le_refl _)
        (fun _ _ => rfl) hfail j
    have hn := allocSectionsGo_fail_next fail t1.block_page_count (GET_BLOCK a)
      t1.next_handle _ _ t1.block_section_handle t1.next_handle hfail
    rw [hh, hn]

/-- Witness for `claim_C3_mmap_errors`: a zero-length request fails with
`-EINVAL`, and a fixed one-page request whose section creation fails is
rolled back to the post-unmap state with `-ENOMEM`. -/
theorem claim_C3_mmap_errors_witness :
    mm_mmap nofail 0 0 0 0 false 0 initState = (-(EINVAL : Int), initState) ∧
    mmapResolved (fun _ => true) 0x10000000 0x1000 3
        (MAP_FIXED ||| MAP_ANONYMOUS ||| MAP_PRIVATE) false 0 initState =
      (-(ENOMEM : Int), (mm_munmap 0x10000000 0x1000 initState).2) :=
  ⟨(claim_C3_mmap_errors nofail 0 0 0 0 false 0 initState).1 rfl,
   (claim_C3_mmap_errors (fun _ => true) 0 0 0 0 false 0 initState).2.2.2.2.2.2.2
     0x10000000 0x1000 3 (MAP_FIXED ||| MAP_ANONYMOUS ||| MAP_PRIVATE) false 0
     initState _ rfl (by intro j h; rfl) (by decide)⟩

/- ----------------------------------------------------------------- -/
/- Claim C8.                                                          -/
/- ----------------------------------------------------------------- -/

theorem hashInv_insert (f : Nat → List DbtBlock) (pc st : Nat)
    (hinv : ∀ i, (∀ b ∈ f i, hash_block_pc b.pc = i) ∧
      (f i).Pairwise (fun a b => a.pc ≠ b.pc))
    (hnone : ∀ x ∈ f (hash_block_pc pc), x.pc ≠ pc) :
    ∀ i, (∀ b ∈ updFun f (hash_block_pc pc)
            ({ pc := pc, start := st } :: f (hash_block_pc pc)) i, hash_block_pc b.pc = i) ∧
      (updFun f (hash_block_pc pc) ({ pc := pc, start := st } :: f (hash_block_pc pc)) i).Pairwise
        (fun a b => a.pc ≠ b.pc) := by
  intro i
  by_cases hi : i = hash_block_pc pc
  · subst hi
    rw [updFun_self]
    constructor
    · intro b hb
      rcases List.mem_cons.mp hb with hb | hb
      · rw [hb]
      · exact (hinv _).1 b hb
    · exact List.pairwise_cons.mpr ⟨fun x hx => (hnone x hx).symm, (hinv _).2⟩
  · rw [updFun_other _ _ _ _ hi]
    exact hinv i

theorem dbt_find_next_inv (pc e t : Nat) (s : DbtState) (h : DbtInv s) :
    DbtInv (dbt_find_next pc e t s).2 := by
  unfold dbt_find_next
  cases hfind : (s.block_hash (hash_block_pc pc)).find? (fun b => b.pc == pc) with
  | some blk => exact h
  | none =>
    unfold dbt_translate
    by_cases hfl : s.blocks_count = MAX_DBT_BLOCKS ∨ s.cacheEnd - s.out < DBT_BLOCK_MAXSIZE
    · rw [if_pos hfl]
      intro i
      exact hashInv_insert _ pc _
        (fun j => ⟨by intro b hb; simp [dbt_flush] at hb, by simp [dbt_flush]⟩)
        (by intro x hx; simp [dbt_flush] at hx) i
    · rw [if_neg hfl]
      intro i
      refine hashInv_insert s.block_hash pc _ (fun j => h j) ?_ i
      intro x hx
      have hpx := List.find?_eq_none.mp hfind x hx
      simpa using hpx

/-- C8: the translated-block index keeps at most one block per guest pc
between flushes.  (1) After any sequence of `dbt_find_next` calls from the
initial state the index invariant holds: every block sits in the bucket its
pc hashes to and pcs within a bucket are pairwise distinct; (2) one
`dbt_find_next` call preserves the invariant from any state satisfying it;
(3) when a block with the requested pc is already present, `dbt_find_next`
returns its start address and changes nothing (no second block is
inserted); (4) `dbt_flush` empties every bucket. -/
theorem claim_C8_block_index :
    (∀ ops, DbtInv (dbt_run_ops ops dbt_init_state)) ∧
    (∀ pc e t s, DbtInv s → DbtInv (dbt_find_next pc e t s).2) ∧
    (∀ pc e t s b, (s.block_hash (hash_block_pc pc)).find? (fun x => x.pc == pc) = some b →
      dbt_find_next pc e t s = (b.start, s)) ∧
    (∀ s i, (dbt_flush s).block_hash i = []) := by
  have hinit : DbtInv dbt_init_state := by
    intro i
    constructor
    · intro b hb; simp [dbt_init_state] at hb
    · simp [dbt_init_state]
  refine ⟨?_, dbt_find_next_inv, ?_, ?_⟩
  · intro ops
    suffices hgen : ∀ (ops : List (Nat × Nat × Nat)) (s : DbtState), DbtInv s →
        DbtInv (dbt_run_ops ops s) by
      exact hgen ops dbt_init_state hinit
    intro ops
    induction ops with
    | nil => intro s hs; exact hs
    | cons op rest ih =>
      intro s hs
      exact ih _ (dbt_find_next_inv op.1 op.2.1 op.2.2 s hs)
  · intro pc e t s b hfind
    unfold dbt_find_next
    rw [hfind]
  · intro s i
    rfl

/-- Witness for `claim_C8_block_index`: after translating pc 100, a second
`dbt_find_next` for pc 100 returns the cached start address (0) without
touching the state. -/
theorem claim_C8_block_index_witness :
    dbt_find_next 100 8 0 (dbt_find_next 100 8 0 dbt_init_state).2 =
      (0, (dbt_find_next 100 8 0 dbt_init_state).2) :=
  claim_C8_block_index.2.2.1 100 8 0 (dbt_find_next 100 8 0 dbt_init_state).2
    { pc := 100, start := 0 } (by decide)

/- ----------------------------------------------------------------- -/
/- Claim C7.                                                          -/
/- ----------------------------------------------------------------- -/

theorem restorePagesGo_page_prot : ∀ (n p : Nat) (s : MMState),
    (restorePagesGo p n s).page_prot = s.page_prot := by
  intro n
  induction n with
  | zero => intro p s; rfl
  | succ m ih => intro p s; unfold restorePagesGo; rw [ih]

theorem restorePagesGo_handles : ∀ (n p : Nat) (s : MMState),
    (restorePagesGo p n s).block_section_handle = s.block_section_handle := by
  intro n
  induction n with
  | zero => intro p s; rfl
  | succ m ih => intro p s; unfold restorePagesGo; rw [ih]

theorem restorePagesGo_host_prot : ∀ (n p : Nat) (s : MMState) (q : Nat),
    (restorePagesGo p n s).host_prot q =
      if p ≤ q ∧ q < p + n then prot_linux2win (s.page_prot q) else s.host_prot q := by
  intro n
  induction n with
  | zero => intro p s q; rw [restorePagesGo, if_neg (by omega)]
  | succ m ih =>
    intro p s q
    unfold restorePagesGo
    rw [ih]
    by_cases hq : q = p
    · subst hq
      rw [if_neg (by omega), if_pos (by omega)]
      simp [updFun]
    · by_cases hin : p + 1 ≤ q ∧ q < p + 1 + m
      · rw [if_pos hin, if_pos (by omega)]
      · rw [if_neg hin, if_neg (by omega)]
        simp [updFun, hq]

theorem mm_handle_page_fault_some (hc : Nat → Nat) (addr : Nat) (s : MMState) (h : Nat)
    (h1 : ¬ ADDRESS_SPACE_HIGH ≤ addr)
    (h2 : ¬ s.page_prot (GET_PAGE addr) &&& PROT_WRITE = 0)
    (hsome : s.block_section_handle (GET_BLOCK addr) = some h) :
    mm_handle_page_fault hc addr s =
      (true, restorePagesGo (GET_FIRST_PAGE_OF_BLOCK (GET_BLOCK addr)) PAGES_PER_BLOCK
        (if hc h = 1 then s
         else { s with
                block_section_handle := updFun s.block_section_handle (GET_BLOCK addr) (some s.next_handle)
                next_handle := s.next_handle + 1 })) := by
  unfold mm_handle_page_fault
  rw [if_neg h1, if_neg h2, hsome]

/-- C7: `mm_handle_page_fault` returns false — with the state unchanged —
whenever the address lies outside `[0, 0x80000000)`, or the stored
protection of its page lacks the write bit, or its 64 KiB block has no
section handle.  When it returns true, the stored protection of every page
of the block has been re-applied to the host, and the block's section
handle was replaced by a freshly created one exactly when the section's
outstanding-handle count exceeded one (the hypotheses say that live handle
identities are below the freshness counter, and that the host handle count
of a live handle is at least one). -/
theorem claim_C7_page_fault (hc : Nat → Nat) (addr : Nat) (s : MMState) :
    (ADDRESS_SPACE_HIGH ≤ addr → mm_handle_page_fault hc addr s = (false, s)) ∧
    (s.page_prot (GET_PAGE addr) &&& PROT_WRITE = 0 →
      mm_handle_page_fault hc addr s = (false, s)) ∧
    (s.block_section_handle (GET_BLOCK addr) = none →
      mm_handle_page_fault hc addr s = (false, s)) ∧
    (∀ h, s.block_section_handle (GET_BLOCK addr) = some h →
      (∀ b hb, s.block_section_handle b = some hb → hb < s.next_handle) →
      1 ≤ hc h →
      (mm_handle_page_fault hc addr s).1 = true →
      (∀ p, GET_BLOCK_OF_PAGE p = GET_BLOCK addr →
        (mm_handle_page_fault hc addr s).2.host_prot p = prot_linux2win (s.page_prot p)) ∧
      ((mm_handle_page_fault hc addr s).2.block_section_handle (GET_BLOCK addr) ≠
          s.block_section_handle (GET_BLOCK addr) ↔ 1 < hc h)) := by
  refine ⟨?_, ?_, ?_, ?_⟩
  · intro h; unfold mm_handle_page_fault; rw [if_pos h]
  · intro h
    unfold mm_handle_page_fault
    by_cases h1 : ADDRESS_SPACE_HIGH ≤ addr
    · rw [if_pos h1]
    · rw [if_neg h1, if_pos h]
  · intro h
    unfold mm_handle_page_fault
    by_cases h1 : ADDRESS_SPACE_HIGH ≤ addr
    · rw [if_pos h1]
    · rw [if_neg h1]
      by_cases h2 : s.page_prot (GET_PAGE addr) &&& PROT_WRITE = 0
      · rw [if_pos h2]
      · rw [if_neg h2, h]
  · intro h hsome hfresh hpos _
    have h1 : ¬ ADDRESS_SPACE_HIGH ≤ addr := by
      intro hcon
      have : (mm_handle_page_fault hc addr s).1 = false := by
        unfold mm_handle_page_fault; rw [if_pos hcon]
      simp_all
    have h2 : ¬ s.page_prot (GET_PAGE addr) &&& PROT_WRITE = 0 := by
      intro hcon
      have : (mm_handle_page_fault hc addr s).1 = false := by
        unfold mm_handle_page_fault; rw [if_neg h1, if_pos hcon]
      simp_all
    rw [mm_handle_page_fault_some hc addr s h h1 h2 hsome]
    by_cases h3 : hc h = 1
    · rw [if_pos h3]
      constructor
      · intro p hp
        rw [restorePagesGo_host_prot]
        rw [if_pos (by simp only [GET_BLOCK_OF_PAGE, GET_FIRST_PAGE_OF_BLOCK, PAGES_PER_BLOCK] at hp ⊢; omega)]
      · rw [restorePagesGo_handles]
        simp [h3]
    · rw [if_neg h3]
      constructor
      · intro p hp
        rw [restorePagesGo_host_prot]
        rw [if_pos (by simp only [GET_BLOCK_OF_PAGE, GET_FIRST_PAGE_OF_BLOCK, PAGES_PER_BLOCK] at hp ⊢; omega)]
      · rw [restorePagesGo_handles]
        have hne : s.next_handle ≠ h := by
          have := hfresh (GET_BLOCK addr) h hsome
          omega
        simp only [updFun_self, hsome]
        constructor
        · intro _; omega
        · intro _ hcon
          exact hne (by simpa using hcon)

/-- Witness for `claim_C7_page_fault`: on `stateC7` with handle count 2 for
every handle, a write fault at `0x10000123` restores the host protection of
page `0x10003` and replaces the block's section handle (the count exceeds
one). -/
theorem claim_C7_page_fault_witness :
    (mm_handle_page_fault (fun _ => 2) 0x10000123 stateC7).2.host_prot 0x10003 =
      prot_linux2win (stateC7.page_prot 0x10003) ∧
    ((mm_handle_page_fault (fun _ => 2) 0x10000123 stateC7).2.block_section_handle 0x1000 ≠
      stateC7.block_section_handle 0x1000 ↔ 1 < 2) := by
  have H := (claim_C7_page_fault (fun _ => 2) 0x10000123 stateC7).2.2.2 0
    (by decide)
    (by
      intro b hb hbe
      by_cases hb' : b = 0x1000
      · subst hb'
        simp [stateC7] at hbe
        simp [stateC7, ← hbe]
      · simp [stateC7, hb'] at hbe)
    (by decide) (by decide)
  exact ⟨H.1 0x10003 (by decide), H.2⟩

/- ----------------------------------------------------------------- -/
/- Claim C6.                                                          -/
/- ----------------------------------------------------------------- -/

theorem protPagesGo_map_list : ∀ (n p pr : Nat) (s : MMState),
    (protPagesGo pr p n s).map_list = s.map_list := by
  intro n
  induction n with
  | zero => intro p pr s; rfl
  | succ m ih => intro p pr s; unfold protPagesGo; rw [ih]

theorem protPagesGo_brk : ∀ (n p pr : Nat) (s : MMState),
    (protPagesGo pr p n s).brk = s.brk := by
  intro n
  induction n with
  | zero => intro p pr s; rfl
  | succ m ih => intro p pr s; unfold protPagesGo; rw [ih]

theorem mm_munmap_brk (a l : Nat) (s : MMState) : (mm_munmap a l s).2.brk = s.brk := by
  unfold mm_munmap
  by_cases h1 : a % PAGE_SIZE ≠ 0
  · rw [if_pos h1]
  · simp only [if_neg h1]
    by_cases h2 : rangeBad a (alignToPage l)
    · simp only [if_pos h2]
    · simp only [if_neg h2]

theorem mmapResolved_brk (fail : Nat → Bool) (a l p fl : Nat) (hf : Bool) (off : Nat)
    (s : MMState) : (mmapResolved fail a l p fl hf off s).2.brk = s.brk := by
  have hs1 : ∀ t : MMState, t = (if fl &&& MAP_FIXED ≠ 0 then (mm_munmap a l s).2 else s) →
      t.brk = s.brk := by
    intro t ht
    by_cases hx : fl &&& MAP_FIXED ≠ 0
    · rw [ht, if_pos hx]; exact mm_munmap_brk a l s
    · rw [ht, if_neg hx]
  unfold mmapResolved
  by_cases hfx : fl &&& MAP_FIXED ≠ 0
  · simp only [if_pos hfx]
    split
    · exact mm_munmap_brk a l s
    · rw [protPagesGo_brk]
      exact mm_munmap_brk a l s
  · simp only [if_neg hfx]
    split
    · rfl
    · rw [protPagesGo_brk]

theorem mm_mmap_brk (fail : Nat → Bool) (a l p fl : Nat) (hf : Bool) (off : Nat)
    (s : MMState) : (mm_mmap fail a l p fl hf off s).2.brk = s.brk := by
  unfold mm_mmap
  by_cases h0 : l = 0
  · rw [if_pos h0]
  · simp only [if_neg h0]
    by_cases h1 : rangeBad a (alignToPage l)
    · simp only [if_pos h1]
    · simp only [if_neg h1]
      by_cases h2 : fl &&& MAP_SHARED ≠ 0
      · simp only [if_pos h2]
      · simp only [if_neg h2]
        by_cases h3 : fl &&& MAP_ANONYMOUS ≠ 0 ∧ hf
        · simp only [if_pos h3]
        · simp only [if_neg h3]
          by_cases h4 : fl &&& MAP_ANONYMOUS = 0 ∧ ¬ hf
          · simp only [if_pos h4]
          · simp only [if_neg h4]
            by_cases h5 : fl &&& MAP_FIXED = 0
            · simp only [if_pos h5]
              by_cases h6 : (if fl &&& MAP_HEAP ≠ 0 then
                  find_free_pages (GET_PAGE (alignToPage (alignToPage l))) HEAP_BASE
                    ADDRESS_ALLOCATION_LOW s.map_list
                else
                  find_free_pages (GET_PAGE (alignToPage (alignToPage l))) ADDRESS_ALLOCATION_LOW
                    ADDRESS_ALLOCATION_HIGH s.map_list) = 0
              · simp only [if_pos h6]
              · simp only [if_neg h6]
                exact mmapResolved_brk ..
            · simp only [if_neg h5]
              by_cases h7 : a % PAGE_SIZE ≠ 0
              · simp only [if_pos h7]
              · simp only [if_neg h7]
                exact mmapResolved_brk ..

theorem insertAfter_mem (endP : Nat) (entry : MapEntry) :
    ∀ l : List MapEntry, entry ∈ insertAfter endP entry l := by
  intro l
  induction l with
  | nil => simp [insertAfter]
  | cons e es ih =>
    cases es with
    | nil => simp [insertAfter]
    | cons e2 rest =>
      show entry ∈ if endP < e2.start_page then e :: entry :: e2 :: rest
        else e :: insertAfter endP entry (e2 :: rest)
      by_cases hsp : endP < e2.start_page
      · rw [if_pos hsp]
        exact List.mem_cons_of_mem _ (List.mem_cons_self _ _)
      · rw [if_neg hsp]
        exact List.mem_cons_of_mem _ ih

theorem insertEntry_mem (entry : MapEntry) (l : List MapEntry) :
    entry ∈ insertEntry entry l := by
  cases l with
  | nil => simp [insertEntry]
  | cons head tail =>
    show entry ∈ if entry.end_page < head.start_page then entry :: tail
      else insertAfter entry.end_page entry (head :: tail)
    by_cases hsp : entry.end_page < head.start_page
    · rw [if_pos hsp]
      exact List.mem_cons_self _ _
    · rw [if_neg hsp]
      exact insertAfter_mem entry.end_page entry (head :: tail)

theorem mm_mmap_fixed_success_mem (fail : Nat → Bool) (a l p fl : Nat) (hf : Bool)
    (off : Nat) (s : MMState) (hfix : fl &&& MAP_FIXED ≠ 0)
    (hok : 0 ≤ (mm_mmap fail a l p fl hf off s).1) :
    ({ start_page := GET_PAGE a, end_page := GET_PAGE (sub32 (a + alignToPage l) 1),
       f := hf, offset_pages := off } : MapEntry) ∈ (mm_mmap fail a l p fl hf off s).2.map_list := by
  unfold mm_mmap at hok ⊢
  by_cases h0 : l = 0
  · rw [if_pos h0] at hok; simp [EINVAL] at hok
  · rw [if_neg h0] at hok ⊢
    by_cases h1 : rangeBad a (alignToPage l)
    · simp only [if_pos h1] at hok; simp [EINVAL] at hok
    · simp only [if_neg h1] at hok ⊢
      by_cases h2 : fl &&& MAP_SHARED ≠ 0
      · simp only [if_pos h2] at hok; simp [EINVAL] at hok
      · simp only [if_neg h2] at hok ⊢
        by_cases h3 : fl &&& MAP_ANONYMOUS ≠ 0 ∧ hf
        · simp only [if_pos h3] at hok; simp [EINVAL] at hok
        · simp only [if_neg h3] at hok ⊢
          by_cases h4 : fl &&& MAP_ANONYMOUS = 0 ∧ ¬ hf
          · simp only [if_pos h4] at hok; simp [EBADF] at hok
          · simp only [if_neg h4] at hok ⊢
            rw [if_neg (by simpa using hfix)] at hok ⊢
            by_cases h5 : a % PAGE_SIZE ≠ 0
            · rw [if_pos h5] at hok; simp [EINVAL] at hok
            · rw [if_neg h5] at hok ⊢
              unfold mmapResolved at hok ⊢
              simp only [if_pos hfix] at hok ⊢
              split at hok
              · simp [ENOMEM] at hok
              · next hc =>
                rw [if_neg hc, protPagesGo_map_list]
                exact insertEntry_mem _ _

theorem alignToPage_mod (x : Nat) : alignToPage x % PAGE_SIZE = 0 := by
  unfold alignToPage U32 PAGE_SIZE
  omega

theorem alignToPage_of_multiple (x : Nat) (hm : x % PAGE_SIZE = 0) (hx : x ≤ 0xFFFFF000) :
    alignToPage x = x := by
  unfold alignToPage U32 PAGE_SIZE at *
  omega

theorem alignToPage_le (x : Nat) (hx : x ≤ 0xFFFFF000) : alignToPage x ≤ 0xFFFFF000 := by
  unfold alignToPage U32 PAGE_SIZE
  omega

theorem alignToPage_le_of_lt (b x : Nat) (hb : b ≤ 0xFFFFF000) (hx : x ≤ 0xFFFFF000)
    (h : b < alignToPage x) : alignToPage b ≤ alignToPage x := by
  unfold alignToPage U32 PAGE_SIZE at *
  omega

theorem alignToPage_lt_U32 (x : Nat) (hx : x ≤ 0xFFFFF000) : alignToPage x < U32 := by
  unfold alignToPage U32 PAGE_SIZE
  omega

theorem mod_sub (a b : Nat) (ha : a % PAGE_SIZE = 0) (hb : b % PAGE_SIZE = 0) :
    (a - b) % PAGE_SIZE = 0 := by
  unfold PAGE_SIZE at *
  omega

theorem brk_end_page_eq (bA aX : Nat) (hbm : bA % PAGE_SIZE = 0) (hxm : aX % PAGE_SIZE = 0)
    (hlt : bA < aX) (hle : aX ≤ 0xFFFFF000) :
    GET_PAGE (sub32 (bA + (aX - bA)) 1) = GET_PAGE aX - 1 := by
  unfold GET_PAGE sub32 U32 PAGE_SIZE at *
  omega


/-- C6: the program break never decreases.  `mm_update_brk` stores the
maximum of the current break and its argument (conjunct 4); every `sys_brk`
call leaves the stored break at least as large as before (conjunct 5); and
for a growth call `sys_brk x` (the aligned request exceeds the stored
break) whose fixed anonymous mapping succeeds, followed by `sys_brk y` with
`y < x`: the break is the page-aligned `x` — the maximum of the two aligned
requests — the shrink call returns that same break and performs no change
of any kind to the state (conjuncts 1-3), and the growth call mapped
exactly the range from the old (aligned) break to the new break as a map
entry (conjunct 6). -/
theorem claim_C6_brk (fail fail2 : Nat → Bool) (x y : Nat) (s : MMState)
    (hyx : y < x) (hx : x ≤ 0xFFFFF000) (hbrk : s.brk ≤ 0xFFFFF000)
    (hgrow : s.brk < alignToPage x)
    (hok : 0 ≤ (sys_brk fail x s).1) :
    (sys_brk fail x s).2.brk = alignToPage x ∧
    sys_brk fail2 y (sys_brk fail x s).2 =
      (Int.ofNat (alignToPage x), (sys_brk fail x s).2) ∧
    alignToPage x = max (alignToPage x) (alignToPage y) ∧
    (∀ (b : Nat) (t : MMState), (mm_update_brk b t).brk = max t.brk b) ∧
    (∀ (f3 : Nat → Bool) (a : Nat) (t : MMState), t.brk ≤ (sys_brk f3 a t).2.brk) ∧
    (∃ e ∈ (sys_brk fail x s).2.map_list,
      e.start_page = GET_PAGE (alignToPage s.brk) ∧
      e.end_page = GET_PAGE (alignToPage x) - 1) := by
  have hr : ¬ (mm_mmap fail (alignToPage s.brk) (sub32 (alignToPage x) (alignToPage s.brk))
      (PROT_READ ||| PROT_WRITE ||| PROT_EXEC) (MAP_FIXED ||| MAP_ANONYMOUS ||| MAP_PRIVATE)
      false 0 s).1 < 0 := by
    intro hneg
    have hfst : (sys_brk fail x s).1 = -(ENOMEM : Int) := by
      unfold sys_brk
      simp only [if_pos hgrow, if_pos hneg]
    rw [hfst] at hok
    simp [ENOMEM] at hok
  have hcall : sys_brk fail x s =
      (Int.ofNat (alignToPage x),
       { (mm_mmap fail (alignToPage s.brk) (sub32 (alignToPage x) (alignToPage s.brk))
           (PROT_READ ||| PROT_WRITE ||| PROT_EXEC) (MAP_FIXED ||| MAP_ANONYMOUS ||| MAP_PRIVATE)
           false 0 s).2 with brk := alignToPage x }) := by
    unfold sys_brk
    simp only [if_pos hgrow, if_neg hr]
  have hmono : alignToPage y ≤ alignToPage x := alignToPage_mono x y (le_of_lt hyx) hx
  have hc1 : (sys_brk fail x s).2.brk = alignToPage x := by rw [hcall]
  refine ⟨hc1, ?_, ?_, ?_, ?_, ?_⟩
  · set s1 := (sys_brk fail x s).2 with hs1
    have hb1 : s1.brk = alignToPage x := hc1
    unfold sys_brk
    simp only [if_neg (show ¬ s1.brk < alignToPage y by rw [hb1]; omega)]
    rw [hb1]
  · omega
  · intro b t; rfl
  · intro f3 a t
    unfold sys_brk
    by_cases hg : t.brk < alignToPage a
    · simp only [if_pos hg]
      by_cases hneg : (mm_mmap f3 (alignToPage t.brk) (sub32 (alignToPage a) (alignToPage t.brk))
          (PROT_READ ||| PROT_WRITE ||| PROT_EXEC) (MAP_FIXED ||| MAP_ANONYMOUS ||| MAP_PRIVATE)
          false 0 t).1 < 0
      · simp only [if_pos hneg]
        rw [mm_mmap_brk]
      · simp only [if_neg hneg]
        omega
    · simp only [if_neg hg]
      exact le_refl _
  · have hA : alignToPage s.brk % PAGE_SIZE = 0 := alignToPage_mod s.brk
    have hX : alignToPage x % PAGE_SIZE = 0 := alignToPage_mod x
    have hXle : alignToPage x ≤ 0xFFFFF000 := alignToPage_le x hx
    have hAle : alignToPage s.brk ≤ 0xFFFFF000 := alignToPage_le s.brk hbrk
    have hord : alignToPage s.brk ≤ alignToPage x := alignToPage_le_of_lt s.brk x hbrk hx hgrow
    have hsub : sub32 (alignToPage x) (alignToPage s.brk) =
        alignToPage x - alignToPage s.brk :=
      sub32_eq_sub _ _ (alignToPage_lt_U32 x hx) hord
    have hlen0 : sub32 (alignToPage x) (alignToPage s.brk) ≠ 0 := by
      intro h0
      apply hr
      rw [h0]
      unfold mm_mmap
      rw [if_pos rfl]
      simp [EINVAL]
    have hxpos : alignToPage s.brk < alignToPage x := by
      rw [hsub] at hlen0
      omega
    have hmem := mm_mmap_fixed_success_mem fail (alignToPage s.brk)
      (sub32 (alignToPage x) (alignToPage s.brk))
      (PROT_READ ||| PROT_WRITE ||| PROT_EXEC) (MAP_FIXED ||| MAP_ANONYMOUS ||| MAP_PRIVATE)
      false 0 s (by decide) (by omega)
    refine ⟨{ start_page := GET_PAGE (alignToPage s.brk),
              end_page := GET_PAGE (sub32 (alignToPage s.brk +
                alignToPage (sub32 (alignToPage x) (alignToPage s.brk))) 1),
              f := false, offset_pages := 0 }, ?_, rfl, ?_⟩
    · rw [hcall]
      exact hmem
    · show GET_PAGE (sub32 (alignToPage s.brk +
        alignToPage (sub32 (alignToPage x) (alignToPage s.brk))) 1) =
        GET_PAGE (alignToPage x) - 1
      rw [hsub]
      rw [alignToPage_of_multiple _ (mod_sub _ _ hX hA) (by omega)]
      exact brk_end_page_eq _ _ hA hX hxpos hXle

/-- Witness for `claim_C6_brk`: from a state with break `0x05000000`,
`brk(0x05002000)` then `brk(0x05001000)` leaves the break at `0x05002000`
and the shrink call changes nothing. -/
theorem claim_C6_brk_witness :
    (sys_brk nofail 0x05002000 stateC6).2.brk = alignToPage 0x05002000 ∧
    sys_brk nofail 0x05001000 (sys_brk nofail 0x05002000 stateC6).2 =
      (Int.ofNat (alignToPage 0x05002000), (sys_brk nofail 0x05002000 stateC6).2) ∧
    alignToPage 0x05002000 = max (alignToPage 0x05002000) (alignToPage 0x05001000) := by
  have H := claim_C6_brk nofail nofail 0x05002000 0x05001000 stateC6
    (by decide) (by decide) (by decide) (by decide) (by decide)
  exact ⟨H.1, H.2.1, H.2.2.1⟩

/- ----------------------------------------------------------------- -/
/- Claim C4: the amended statement.                                   -/
/- ----------------------------------------------------------------- -/

theorem entriesOrdered_head_lt (e : MapEntry) (es : List MapEntry)
    (hord : entriesOrdered (e :: es)) (hwf : entriesWF es) :
    ∀ f ∈ es, e.end_page < f.start_page := by
  induction es generalizing e with
  | nil => intro f hf; simp at hf
  | cons g gs ih =>
    intro f hf
    have h1 : e.end_page < g.start_page := (List.chain'_cons.mp hord).1
    rcases List.mem_cons.mp hf with hfg | hfs
    · rw [hfg]; exact h1
    · have h2 := ih g (List.chain'_cons.mp hord).2
        (fun t ht => hwf t (List.mem_cons_of_mem _ ht)) f hfs
      have hg := hwf g (by simp)
      omega

theorem ffp_go_spec (cnt lowP highP : Nat) (hH : highP ≤ 1048576) :
    ∀ (l : List MapEntry) (last : Nat),
      entriesWF l → entriesOrdered l → windowClean lowP highP l →
      lowP ≤ last → last ≤ highP →
      (∀ e ∈ l, lowP ≤ e.start_page → last ≤ e.start_page) →
      ffp_go cnt lowP highP l last ≠ 0 →
      last ≤ ffp_go cnt lowP highP l last ∧
      ffp_go cnt lowP highP l last + cnt ≤ highP ∧
      (∀ e ∈ l, e.end_page < ffp_go cnt lowP highP l last ∨
        ffp_go cnt lowP highP l last + cnt ≤ e.start_page) := by
  intro l
  induction l with
  | nil =>
    intro last _ _ _ _ hhigh _ hne
    unfold ffp_go at hne ⊢
    by_cases hc : cnt ≤ sub32 highP last
    · rw [if_pos hc] at hne ⊢
      have hs : sub32 highP last = highP - last :=
        sub32_eq_sub _ _ (by unfold U32; omega) hhigh
      rw [hs] at hc
      exact ⟨le_refl _, by omega, by intro e he; simp at he⟩
    · rw [if_neg hc] at hne
      exact absurd rfl hne
  | cons e es ih =>
    intro last hwf hord hcln hlow hhigh hfirst hne
    have hwfe : e.start_page ≤ e.end_page := hwf e (by simp)
    have hwfes : entriesWF es := fun t ht => hwf t (List.mem_cons_of_mem _ ht)
    have hclnes : windowClean lowP highP es := fun t ht => hcln t (List.mem_cons_of_mem _ ht)
    have hstep := entriesOrdered_head_lt e es hord hwfes
    unfold ffp_go at hne ⊢
    by_cases hl : lowP ≤ e.start_page
    · rw [if_pos hl] at hne ⊢
      have hlaste : last ≤ e.start_page := hfirst e (by simp) hl
      have heb : e.end_page < highP := (hcln e (by simp)).2 hl
      have hsub : sub32 e.start_page last = e.start_page - last :=
        sub32_eq_sub _ _ (by unfold U32; omega) hlaste
      by_cases hacc : cnt ≤ sub32 e.start_page last
      · rw [if_pos hacc] at hne ⊢
        rw [hsub] at hacc
        refine ⟨le_refl _, by omega, ?_⟩
        intro f hf
        rcases List.mem_cons.mp hf with hfe | hfs
        · right; rw [hfe]; omega
        · right
          have := hstep f hfs
          omega
      · rw [if_neg hacc] at hne ⊢
        have hres := ih (e.end_page + 1) hwfes (List.Chain'.tail hord) hclnes
          (by omega) (by omega) (fun f hf _ => by have := hstep f hf; omega) hne
        obtain ⟨hr1, hr2, hr3⟩ := hres
        refine ⟨by omega, hr2, ?_⟩
        intro f hf
        rcases List.mem_cons.mp hf with hfe | hfs
        · left; rw [hfe]; omega
        · exact hr3 f hfs
    · rw [if_neg hl] at hne ⊢
      have hres := ih last hwfes (List.Chain'.tail hord) hclnes hlow hhigh
        (fun f hf hlf => hfirst f (List.mem_cons_of_mem _ hf) hlf) hne
      obtain ⟨hr1, hr2, hr3⟩ := hres
      refine ⟨hr1, hr2, ?_⟩
      intro f hf
      rcases List.mem_cons.mp hf with hfe | hfs
      · left
        have hel : e.end_page < lowP := (hcln e (by simp)).1 (by omega)
        rw [hfe]; omega
      · exact hr3 f hfs

theorem mmapResolved_fst (fail : Nat → Bool) (a l p fl : Nat) (hf : Bool) (off : Nat)
    (s : MMState) :
    (mmapResolved fail a l p fl hf off s).1 = -(ENOMEM : Int) ∨
    (mmapResolved fail a l p fl hf off s).1 = Int.ofNat a := by
  unfold mmapResolved
  by_cases hfx : fl &&& MAP_FIXED ≠ 0
  · simp only [if_pos hfx]
    split
    · left; rfl
    · right; rfl
  · simp only [if_neg hfx]
    split
    · left; rfl
    · right; rfl

theorem GET_PAGE_mul (p : Nat) : GET_PAGE (p * PAGE_SIZE) = p := by
  unfold GET_PAGE PAGE_SIZE
  omega

theorem int_toNat_ofNat (n : Nat) : (Int.ofNat n).toNat = n := rfl

/-- C4 (amended): a successful non-fixed `mm_mmap` on a state whose map
list is sorted, pairwise disjoint and well-formed, where no entry straddles
the lower bound of the chosen allocation window and every entry starting
inside the window ends inside it, returns a page range lying entirely
within the window (the heap window when `__MAP_HEAP` is set, the main
window otherwise) that overlaps no entry present at the time of the
call. -/
theorem claim_C4_nonfixed_alloc (fail : Nat → Bool) (addr0 length0 prot flags : Nat)
    (hasFile : Bool) (offp : Nat) (s : MMState)
    (hfix : flags &&& MAP_FIXED = 0)
    (hwf : entriesWF s.map_list) (hord : entriesOrdered s.map_list)
    (hcln : windowClean (mmapWindowLow flags) (mmapWindowHigh flags) s.map_list)
    (hok : 0 ≤ (mm_mmap fail addr0 length0 prot flags hasFile offp s).1) :
    mmapWindowLow flags ≤
      GET_PAGE (mm_mmap fail addr0 length0 prot flags hasFile offp s).1.toNat ∧
    GET_PAGE (mm_mmap fail addr0 length0 prot flags hasFile offp s).1.toNat +
      GET_PAGE (alignToPage length0) ≤ mmapWindowHigh flags ∧
    (∀ e ∈ s.map_list,
      e.end_page < GET_PAGE (mm_mmap fail addr0 length0 prot flags hasFile offp s).1.toNat ∨
      GET_PAGE (mm_mmap fail addr0 length0 prot flags hasFile offp s).1.toNat +
        GET_PAGE (alignToPage length0) ≤ e.start_page) := by
  unfold mm_mmap at hok ⊢
  by_cases h0 : length0 = 0
  · rw [if_pos h0] at hok; simp [EINVAL] at hok
  · rw [if_neg h0] at hok ⊢
    by_cases h1 : rangeBad addr0 (alignToPage length0)
    · simp only [if_pos h1] at hok; simp [EINVAL] at hok
    · simp only [if_neg h1] at hok ⊢
      by_cases h2 : flags &&& MAP_SHARED ≠ 0
      · simp only [if_pos h2] at hok; simp [EINVAL] at hok
      · simp only [if_neg h2] at hok ⊢
        by_cases h3 : flags &&& MAP_ANONYMOUS ≠ 0 ∧ hasFile
        · simp only [if_pos h3] at hok; simp [EINVAL] at hok
        · simp only [if_neg h3] at hok ⊢
          by_cases h4 : flags &&& MAP_ANONYMOUS = 0 ∧ ¬ hasFile
          · simp only [if_pos h4] at hok; simp [EBADF] at hok
          · simp only [if_neg h4] at hok ⊢
            rw [if_pos hfix] at hok ⊢
            simp only [alignToPage_idem] at hok ⊢
            by_cases hh : flags &&& MAP_HEAP ≠ 0
            · simp only [if_pos hh] at hok ⊢
              by_cases hap : find_free_pages (GET_PAGE (alignToPage length0)) HEAP_BASE
                  ADDRESS_ALLOCATION_LOW s.map_list = 0
              · simp only [if_pos hap] at hok; simp [ENOMEM] at hok
              · simp only [if_neg hap] at hok ⊢
                rcases mmapResolved_fst fail
                    (find_free_pages (GET_PAGE (alignToPage length0)) HEAP_BASE
                      ADDRESS_ALLOCATION_LOW s.map_list * PAGE_SIZE)
                    (alignToPage length0) prot flags hasFile offp s with hE | hA
                · rw [hE] at hok; simp [ENOMEM] at hok
                · simp only [hA, Int.toNat_ofNat, GET_PAGE_mul, mmapWindowLow,
                    mmapWindowHigh, if_pos hh]
                  have H := ffp_go_spec (GET_PAGE (alignToPage length0)) (GET_PAGE HEAP_BASE)
                    (GET_PAGE ADDRESS_ALLOCATION_LOW) (by decide) s.map_list
                    (GET_PAGE HEAP_BASE) hwf hord
                    (by simpa [mmapWindowLow, mmapWindowHigh, if_pos hh] using hcln)
                    (le_refl _) (by decide) (fun e _ hle => hle)
                    (by simpa [find_free_pages] using hap)
                  simp only [find_free_pages, int_toNat_ofNat, GET_PAGE_mul] at H ⊢
                  exact H
            · simp only [if_neg hh] at hok ⊢
              by_cases hap : find_free_pages (GET_PAGE (alignToPage length0))
                  ADDRESS_ALLOCATION_LOW ADDRESS_ALLOCATION_HIGH s.map_list = 0
              · simp only [if_pos hap] at hok; simp [ENOMEM] at hok
              · simp only [if_neg hap] at hok ⊢
                rcases mmapResolved_fst fail
                    (find_free_pages (GET_PAGE (alignToPage length0)) ADDRESS_ALLOCATION_LOW
                      ADDRESS_ALLOCATION_HIGH s.map_list * PAGE_SIZE)
                    (alignToPage length0) prot flags hasFile offp s with hE | hA
                · rw [hE] at hok; simp [ENOMEM] at hok
                · simp only [hA, Int.toNat_ofNat, GET_PAGE_mul, mmapWindowLow,
                    mmapWindowHigh, if_neg hh]
                  have H := ffp_go_spec (GET_PAGE (alignToPage length0))
                    (GET_PAGE ADDRESS_ALLOCATION_LOW) (GET_PAGE ADDRESS_ALLOCATION_HIGH)
                    (by decide) s.map_list (GET_PAGE ADDRESS_ALLOCATION_LOW) hwf hord
                    (by simpa [mmapWindowLow, mmapWindowHigh, if_neg hh] using hcln)
                    (le_refl _) (by decide) (fun e _ hle => hle)
                    (by simpa [find_free_pages] using hap)
                  simp only [find_free_pages, int_toNat_ofNat, GET_PAGE_mul] at H ⊢
                  exact H

/-- Witness for `claim_C4_nonfixed_alloc`: a one-page anonymous non-fixed
request on the initial (empty) state is placed at the bottom of the main
window. -/
theorem claim_C4_nonfixed_alloc_witness :
    mmapWindowLow (MAP_ANONYMOUS ||| MAP_PRIVATE) ≤
      GET_PAGE (mm_mmap nofail 0 0x1000 3 (MAP_ANONYMOUS ||| MAP_PRIVATE) false 0 initState).1.toNat ∧
    GET_PAGE (mm_mmap nofail 0 0x1000 3 (MAP_ANONYMOUS ||| MAP_PRIVATE) false 0 initState).1.toNat +
      GET_PAGE (alignToPage 0x1000) ≤ mmapWindowHigh (MAP_ANONYMOUS ||| MAP_PRIVATE) := by
  have H := claim_C4_nonfixed_alloc nofail 0 0x1000 3 (MAP_ANONYMOUS ||| MAP_PRIVATE) false 0
    initState (by decide) (by intro e he; simp [initState] at he)
    (by simp [entriesOrdered, initState]) (by intro e he; simp [initState] at he)
    (by decide)
  exact ⟨H.1, H.2.1⟩

